import Mathlib

/-!
Shallow embedding of the crawl/analysis pipeline of the AiCrowlerSite
repository (src/services/googleService.ts and src/components/Auditor.tsx),
together with theorems settling the specification claims.

Network transport (the CORS proxy fetch), the DOM/URL browser primitives and
the language-model backends are environment effects; they are modelled as
explicit oracle functions passed to the embedded definitions.  Everything the
TypeScript source computes itself (partitioning, placeholder construction,
queue traversal, JSON-span extraction, summary bucketing, suffix tests, …) is
translated directly from the source.
-/

namespace AiCrowler

/-! ### Generic string helpers (JS primitives used by the source) -/

/-- JS `String.prototype.indexOf` for a single character: index of the first
occurrence, or `none` (JS returns `-1`). -/
def firstIdxOf (c : Char) (l : List Char) : Option Nat :=
  match l with
  | [] => none
  | x :: xs =>
    if x = c then some 0
    else (firstIdxOf c xs).map (· + 1)

/-- JS `String.prototype.lastIndexOf` for a single character. -/
def lastIdxOf (c : Char) (l : List Char) : Option Nat :=
  match l with
  | [] => none
  | x :: xs =>
    match lastIdxOf c xs with
    | some i => some (i + 1)
    | none => if x = c then some 0 else none

/-- JS `text.substring(start, stop)` (with `start ≤ stop` in our uses). -/
def substringList (l : List Char) (start stop : Nat) : List Char :=
  (l.drop start).take (stop - start)

/-- JS `String.prototype.toLowerCase` (ASCII-adequate for the suffix tests the
source performs). -/
def lowerStr (s : String) : String :=
  ⟨s.data.map Char.toLower⟩

/-- JS `String.prototype.endsWith`. -/
def endsWithStr (s suffix : String) : Bool :=
  suffix.data.isSuffixOf s.data

/-- JS `String.prototype.startsWith`. -/
def startsWithStr (s pre : String) : Bool :=
  pre.data.isPrefixOf s.data

/-- Substring containment on character lists (computable). -/
def listContainsSub (l sub : List Char) : Bool :=
  match l with
  | [] => sub.isEmpty
  | _ :: xs => sub.isPrefixOf l || listContainsSub xs sub

/-- JS `a.includes(b)` (substring containment). -/
def includesStr (s sub : String) : Bool :=
  listContainsSub s.data sub.data

/-- JS `String.prototype.trim` (both-ends whitespace strip, as Lean's
`String.trim`). -/
def trimStr (s : String) : String :=
  ⟨(s.data.dropWhile Char.isWhitespace).reverse.dropWhile Char.isWhitespace |>.reverse⟩

/-- JS `text.split('\n')` / `text.split('#')`-style splitting on a single
separator character. -/
def splitOnChar (c : Char) (l : List Char) : List (List Char) :=
  match l with
  | [] => [[]]
  | x :: xs =>
    let rest := splitOnChar c xs
    if x = c then [] :: rest
    else
      match rest with
      | [] => [[x]]
      | r :: rs => (x :: r) :: rs

/-- JS `href.split('#')[0]` — the part of the string before the first `'#'`. -/
def stripFragment (s : String) : String :=
  ⟨s.data.takeWhile (· ≠ '#')⟩

/-! ### `extractJson` (googleService.ts lines 584–604)

```ts
function extractJson(text: string): string {
    const firstBracket = text.indexOf('{');
    const firstSquare = text.indexOf('[');
    let startIndex = -1;
    if (firstBracket === -1 && firstSquare === -1) return "";
    if (firstBracket === -1) startIndex = firstSquare;
    else if (firstSquare === -1) startIndex = firstBracket;
    else startIndex = Math.min(firstBracket, firstSquare);
    const lastBracket = text.lastIndexOf('}');
    const lastSquare = text.lastIndexOf(']');
    let endIndex = Math.max(lastBracket, lastSquare);
    if (startIndex === -1 || endIndex === -1 || endIndex < startIndex) return "";
    return text.substring(startIndex, endIndex + 1);
}
```
`-1` sentinels become `Option Nat`; `Math.max` of two `lastIndexOf` results is
`none` exactly when both are `-1`. -/
/-- JS `Math.min` over bracket indexes with `-1` as the "absent" sentinel,
as the `startIndex` assignment chain computes it: absent only when both
inputs are absent. -/
def jsMin : Option Nat → Option Nat → Option Nat
  | none, none => none
  | none, some j => some j
  | some i, none => some i
  | some i, some j => some (min i j)

/-- JS `Math.max(lastBracket, lastSquare)` with `-1` as the "absent"
sentinel: `-1` only when both inputs are `-1` (the `endIndex === -1`
check). -/
def jsMax : Option Nat → Option Nat → Option Nat
  | none, none => none
  | none, some j => some j
  | some i, none => some i
  | some i, some j => some (max i j)

def extractJsonL (l : List Char) : List Char :=
  match jsMin (firstIdxOf '{' l) (firstIdxOf '[' l) with
  | none => []
  | some startIndex =>
    match jsMax (lastIdxOf '}' l) (lastIdxOf ']' l) with
    | none => []
    | some endIndex =>
      if endIndex < startIndex then []
      else substringList l startIndex (endIndex + 1)

def extractJson (text : String) : String :=
  ⟨extractJsonL text.data⟩

/-! ### Data model (types.ts) -/

/-- types.ts `MetaTag`. -/
structure MetaTag where
  name : Option String
  property : Option String
  content : String
deriving DecidableEq, Repr

/-- types.ts `Link` (entries of `internalLinkUrls` / `externalLinkUrls`). -/
structure Link where
  url : String
  anchor : String
deriving DecidableEq, Repr

/-- types.ts `CrawledPage`.  `status` is an `Int` (a JS `number` as produced
by the pipeline is always an integer here).  The two optional link-detail
fields are `Option` because the fetch-failure and analysis-failure
placeholders omit them. -/
structure CrawledPage where
  url : String
  status : Int
  title : String
  description : String
  h1 : String
  contentPreview : String
  internalLinks : Int
  externalLinks : Int
  metaTags : List MetaTag
  internalLinkUrls : Option (List Link)
  externalLinkUrls : Option (List Link)
deriving DecidableEq, Repr

/-- types.ts `CrawlSummary` (all counters). -/
structure CrawlSummary where
  totalPages : Nat
  healthyPages : Nat
  redirects : Nat
  clientErrors : Nat
  serverErrors : Nat
deriving DecidableEq, Repr

/-! ### `calculateCrawlSummary` (Auditor.tsx lines 103–112)

```ts
const calculateCrawlSummary = (pages: CrawledPage[]): CrawlSummary => {
    return pages.reduce((acc, page) => {
      acc.totalPages += 1;
      if (page.status >= 200 && page.status < 300) acc.healthyPages += 1;
      else if (page.status >= 300 && page.status < 400) acc.redirects += 1;
      else if (page.status >= 400 && page.status < 500) acc.clientErrors += 1;
      else if (page.status >= 500) acc.serverErrors += 1;
      return acc;
    }, { totalPages: 0, healthyPages: 0, redirects: 0, clientErrors: 0, serverErrors: 0 });
};
``` -/
def crawlSummaryStep (acc : CrawlSummary) (page : CrawledPage) : CrawlSummary :=
  let acc := { acc with totalPages := acc.totalPages + 1 }
  if 200 ≤ page.status ∧ page.status < 300 then
    { acc with healthyPages := acc.healthyPages + 1 }
  else if 300 ≤ page.status ∧ page.status < 400 then
    { acc with redirects := acc.redirects + 1 }
  else if 400 ≤ page.status ∧ page.status < 500 then
    { acc with clientErrors := acc.clientErrors + 1 }
  else if 500 ≤ page.status then
    { acc with serverErrors := acc.serverErrors + 1 }
  else acc

def calculateCrawlSummary (pages : List CrawledPage) : CrawlSummary :=
  pages.foldl crawlSummaryStep
    { totalPages := 0, healthyPages := 0, redirects := 0
      clientErrors := 0, serverErrors := 0 }

/-! ### `analyzePageBatch` (googleService.ts lines 665–807) -/

/-- types.ts `AIAgent.provider`: the closed union `'gemini' | 'openai' |
'openrouter'`. -/
inductive Provider where
  | gemini
  | openai
  | openrouter
deriving DecidableEq, Repr

/-- types.ts `AIAgent` (the fields the pipeline reads; `id`, `user_id`,
`name`, `is_default` are persistence metadata never consulted by the
service functions). -/
structure AIAgent where
  provider : Provider
  model : String
  system_prompt : String
deriving DecidableEq, Repr

/-- Digit-run value, as JS `parseInt(digits, 10)` on a nonempty digit
string. -/
def digitsToNat (ds : List Char) : Nat :=
  ds.foldl (fun a c => 10 * a + (c.toNat - '0'.toNat)) 0

/-- The JS regex match `message.match(/status (\d+)/)` (googleService.ts line
675): the first position where the literal `"status "` is followed by at
least one digit; the captured group is the maximal digit run there. -/
def statusFragment : List Char → Option Nat
  | [] => none
  | c :: cs =>
    let l := c :: cs
    let tail := l.drop 7
    if "status ".data.isPrefixOf l && (tail.headD 'x').isDigit && !tail.isEmpty then
      some (digitsToNat (tail.takeWhile Char.isDigit))
    else statusFragment cs

/-- One element of `pagesWithHtml` (googleService.ts lines 668–680). -/
structure FetchedPage where
  url : String
  html : Option String
  error : Option String
  status : Int
deriving DecidableEq, Repr

/-- googleService.ts lines 669–679: fetch one URL through the proxy.  The
fetch transport is the environment; `fetchO url = .error m` models
`fetchWithProxy` rejecting with an `Error` whose message is `m`. -/
def fetchPage (fetchO : String → Except String String) (url : String) :
    FetchedPage :=
  match fetchO url with
  | .ok html => { url := url, html := some html, error := none, status := 200 }
  | .error message =>
    let status : Int :=
      match statusFragment message.data with
      | some n => (n : Int)
      | none => 500
    { url := url, html := none, error := some message, status := status }

/-- googleService.ts lines 685–695: the `'Fetch Failed'` placeholder built
from a failed fetch (`description: page.error || 'N/A'`; JS `||` maps both
`null` and the empty string to `'N/A'`). -/
def fetchFailedPage (p : FetchedPage) : CrawledPage :=
  { url := p.url
    status := p.status
    title := "Fetch Failed"
    description := match p.error with
      | some m => if m = "" then "N/A" else m
      | none => "N/A"
    h1 := "N/A"
    contentPreview := "N/A"
    internalLinks := 0
    externalLinks := 0
    metaTags := []
    internalLinkUrls := none
    externalLinkUrls := none }

/-- One item of the model's parsed JSON array, under the TS annotations of
the extraction schema; `none` models a JS `null`/`undefined` field (the `??`
defaults fire exactly then). -/
structure RawItem where
  url : Option String
  status : Option Int
  title : Option String
  description : Option String
  h1 : Option String
  contentPreview : Option String
  internalLinks : Option Int
  externalLinks : Option Int
  metaTags : Option (List MetaTag)
  internalLinkUrls : Option (List Link)
  externalLinkUrls : Option (List Link)
deriving DecidableEq, Repr

/-- googleService.ts lines 783–789: per-item `??` defaulting of the parsed
model output into a `CrawledPage`. -/
def rawItemToPage (item : RawItem) : CrawledPage :=
  { url := item.url.getD "Unknown URL"
    status := item.status.getD 500
    title := item.title.getD "N/A"
    description := item.description.getD "N/A"
    h1 := item.h1.getD "N/A"
    contentPreview := item.contentPreview.getD "N/A"
    internalLinks := item.internalLinks.getD 0
    externalLinks := item.externalLinks.getD 0
    metaTags := item.metaTags.getD []
    internalLinkUrls := some (item.internalLinkUrls.getD [])
    externalLinkUrls := some (item.externalLinkUrls.getD []) }

/-- Shape classification of `parsedData` as produced by the provider call +
`extractJson` + `JSON.parse` region (googleService.ts lines 721–779).  The
network transport, the raw response text and `JSON.parse` are environment
effects, so that region is an oracle returning either a thrown error message
or a `ParsedData`: a JS array of items (`arr`), a non-array object with
exactly one key whose value is an array (`wrappedArr` — the shape the
OpenAI/OpenRouter branch unwraps at lines 776–778), or any other JSON value
(`other`). -/
inductive ParsedData where
  | arr (items : List RawItem)
  | wrappedArr (items : List RawItem)
  | other
deriving DecidableEq, Repr

/-- The provider dispatch of googleService.ts lines 721–781, ending at the
`Array.isArray` check: Gemini accepts only a genuine array; OpenAI/OpenRouter
additionally unwraps a single-key object wrapping an array; everything else
throws `"Parsed data is not an array."`. -/
def modelDispatch (agent : AIAgent)
    (mo : List (String × String) → Except String ParsedData)
    (pages : List (String × String)) : Except String (List RawItem) :=
  match agent.provider with
  | .gemini =>
    match mo pages with
    | .error e => .error e
    | .ok (.arr items) => .ok items
    | .ok (.wrappedArr _) => .error "Parsed data is not an array."
    | .ok .other => .error "Parsed data is not an array."
  | .openai | .openrouter =>
    match mo pages with
    | .error e => .error e
    | .ok (.arr items) => .ok items
    | .ok (.wrappedArr items) => .ok items
    | .ok .other => .error "Parsed data is not an array."

/-- googleService.ts line 796: rate-limit classification by substring match
on the error text. -/
def isRateLimitError (e : String) : Bool :=
  includesStr e "429" || includesStr e "RESOURCE_EXHAUSTED" ||
    includesStr e "rate limit"

/-- googleService.ts lines 797–799 (`error.message || "Could not parse AI
response."`; JS `||` maps the empty message to the fallback). -/
def analysisErrorMessage (e : String) : String :=
  if isRateLimitError e then
    "API rate limit exceeded. Please wait a moment and try again."
  else if e = "" then "Could not parse AI response."
  else e

/-- googleService.ts lines 801–804: the `'Analysis Failed'` placeholder for
one successfully-fetched page. -/
def analysisFailedPage (errorMessage : String) (p : FetchedPage) :
    CrawledPage :=
  { url := p.url
    status := 500
    title := "Analysis Failed"
    description := errorMessage
    h1 := "N/A"
    contentPreview := "N/A"
    internalLinks := 0
    externalLinks := 0
    metaTags := []
    internalLinkUrls := none
    externalLinkUrls := none }

/-- googleService.ts lines 665–807, `analyzePageBatch`.  `fetchO` is the
fetch transport, `mo` the model backend region (see `ParsedData`).
`.error` models the function throwing/rejecting; `.ok` a normal return. -/
def analyzePageBatch (urls : List String) (agent : AIAgent) (apiKey : String)
    (fetchO : String → Except String String)
    (mo : List (String × String) → Except String ParsedData) :
    Except String (List CrawledPage) :=
  if apiKey = "" then
    .error ((if agent.provider = .gemini then "Gemini" else "OpenAI") ++
      " API key is required.")
  else
    let pagesWithHtml := urls.map (fetchPage fetchO)
    let validPages := pagesWithHtml.filter (·.html.isSome)
    let failedPages := pagesWithHtml.filter (·.html.isNone)
    let results := failedPages.map fetchFailedPage
    if validPages.length = 0 then .ok results
    else
      let validPagesForPrompt := validPages.map (fun p => (p.url, p.html.getD ""))
      match modelDispatch agent mo validPagesForPrompt with
      | .ok items => .ok (results ++ items.map rawItemToPage)
      | .error e =>
        .ok (results ++ validPages.map (analysisFailedPage (analysisErrorMessage e)))

/-- The `failedPages.map(...)` placeholder list of `analyzePageBatch`
(googleService.ts lines 683–695), as a standalone function of the inputs:
the `'Fetch Failed'` records, in input order, one per fetch-failed URL. -/
def fetchFailedResults (urls : List String)
    (fetchO : String → Except String String) : List CrawledPage :=
  ((urls.map (fetchPage fetchO)).filter (·.html.isNone)).map fetchFailedPage

/-- The `validPages` partition of `analyzePageBatch` (googleService.ts line
682) as a standalone function of the inputs. -/
def validPagesOf (urls : List String)
    (fetchO : String → Except String String) : List FetchedPage :=
  (urls.map (fetchPage fetchO)).filter (·.html.isSome)

/-! ### `discoverUrlsToCrawl` (googleService.ts lines 609–663)

The browser's `URL` constructor and the DOM parser are environment
primitives, modelled by oracles:
* `parseURL s` models `new URL(s)` on an absolute string (`none` = throws);
* `resolveO href base` models `new URL(href, base)` (`none` = throws);
* `fetchLinksO url` models `fetchWithProxy(url)` + `DOMParser` +
  `querySelectorAll('a[href]')` + `getAttribute('href')`: `none` when the
  fetch throws, otherwise the list of `href` attribute values in document
  order (the empty string models a null/empty `href`, which the source's
  `!href` guard skips). -/

/-- The fields of a parsed JS `URL` object the source reads. -/
structure URLInfo where
  protocol : String
  hostname : String
  origin : String
  href : String
deriving DecidableEq, Repr

/-- The crawl loop's mutable state (queue, cursor `i`, `visited`,
`foundUrls`); JS `Set` keeps insertion order, so both sets are lists with
membership tests.  `fetched` is ghost instrumentation recording each
`fetchWithProxy(url)` call the source makes, with the queue depth of the
page being expanded. -/
structure CrawlState where
  queue : List (String × Nat)
  i : Nat
  visited : List String
  foundUrls : List String
  fetched : List (String × Nat)
deriving DecidableEq, Repr

/-- googleService.ts lines 633–656: the `links.forEach` body for one `href`
found on page `pageUrl` at queue depth `depth`. -/
def processLink (baseHost pageUrl : String) (depth : Nat)
    (resolveO : String → String → Option URLInfo)
    (s : CrawlState) (href : String) : CrawlState :=
  if href = "" ∨ startsWithStr href "mailto:" ∨ startsWithStr href "tel:" then s
  else
    match resolveO href pageUrl with
    | none => s
    | some u =>
      if u.protocol ≠ "http:" ∧ u.protocol ≠ "https:" then s
      else
        let absoluteUrl := stripFragment u.href
        if u.hostname = baseHost ∧ absoluteUrl ∉ s.visited then
          { s with
            visited := s.visited ++ [absoluteUrl]
            foundUrls := s.foundUrls ++ [absoluteUrl]
            queue := s.queue ++ [(absoluteUrl, depth + 1)] }
        else s

/-- googleService.ts lines 618–660: the `while (i < queue.length)` loop.
Fuel-indexed (the source's termination relies on the visited set; every
safety claim below is proved for all fuel values). -/
def crawlLoop (fetchLinksO : String → Option (List String))
    (resolveO : String → String → Option URLInfo)
    (baseHost : String) (crawlDepth : Nat) :
    Nat → CrawlState → CrawlState
  | 0, s => s
  | fuel + 1, s =>
    match s.queue.get? s.i with
    | none => s
    | some (url, depth) =>
      let s1 := { s with i := s.i + 1 }
      if crawlDepth ≤ depth then
        crawlLoop fetchLinksO resolveO baseHost crawlDepth fuel s1
      else
        let s2 := { s1 with fetched := s1.fetched ++ [(url, depth)] }
        match fetchLinksO url with
        | none => crawlLoop fetchLinksO resolveO baseHost crawlDepth fuel s2
        | some hrefs =>
          crawlLoop fetchLinksO resolveO baseHost crawlDepth fuel
            (hrefs.foldl (processLink baseHost url depth resolveO) s2)

/-- googleService.ts lines 609–663, `discoverUrlsToCrawl`.  Returns
`none` when `new URL(startUrl)` throws (the promise rejects); otherwise the
`foundUrls` insertion-order list (`Array.from(foundUrls)`) paired with the
ghost fetch log. -/
def discoverUrlsToCrawl (startUrl : String) (crawlDepth : Nat)
    (parseURL : String → Option URLInfo)
    (resolveO : String → String → Option URLInfo)
    (fetchLinksO : String → Option (List String))
    (fuel : Nat) : Option (List String × List (String × Nat)) :=
  match parseURL startUrl with
  | none => none
  | some base =>
    let s0 : CrawlState :=
      { queue := [(startUrl, 0)], i := 0, visited := [startUrl]
        foundUrls := [startUrl], fetched := [] }
    let s := crawlLoop fetchLinksO resolveO base.hostname crawlDepth fuel s0
    some (s.foundUrls, s.fetched)

/-! ### Sitemap traversal (googleService.ts lines 810–940) -/

/-- types.ts `SitemapEntry`; `priority` is a JS `number`, embedded as `Rat`
(the default is `0.5`). -/
structure SitemapEntry where
  loc : String
  lastmod : String
  changefreq : String
  priority : Rat
deriving DecidableEq, Repr

/-- One item of the model's parsed sitemap JSON array, under the defaulting
at googleService.ts lines 871–874. -/
structure RawSitemapItem where
  loc : Option String
  lastmod : Option String
  changefreq : Option String
  priority : Option Rat
deriving DecidableEq, Repr

/-- Shape classification of the sitemap `parsedData` (see `ParsedData`);
the provider call + `extractJson` + `JSON.parse` region of
`parseSitemapWithAI` (googleService.ts lines 825–867) is the oracle.  The
Gemini branch's early `[]` return for an empty/`"[]"` extraction is the
oracle answering `.ok (.arr [])`. -/
inductive SitemapParsedData where
  | arr (items : List RawSitemapItem)
  | wrappedArr (items : List RawSitemapItem)
  | other
deriving DecidableEq, Repr

/-- Lower-cased name of a provider, as interpolated into thrown key-check
messages (```${agent.provider} API key is required.`'' ). -/
def providerStr : Provider → String
  | .gemini => "gemini"
  | .openai => "openai"
  | .openrouter => "openrouter"

/-- googleService.ts lines 810–882, `parseSitemapWithAI`: dispatch to the
provider, require an array (OpenAI/OpenRouter unwraps the single-key
object shape), apply per-item defaults (`loc ?? ''`, `lastmod ?? ''`,
`changefreq ?? ''`, `priority ?? 0.5`) and keep only truthy `loc`s; any
thrown error is re-thrown through the catch at lines 875–881. -/
def parseSitemapWithAI (agent : AIAgent)
    (smo : String → Except String SitemapParsedData)
    (content : String) : Except String (List SitemapEntry) :=
  let dispatched : Except String (List RawSitemapItem) :=
    match agent.provider with
    | .gemini =>
      match smo content with
      | .error e => .error e
      | .ok (.arr items) => .ok items
      | .ok (.wrappedArr _) => .error "Parsed data is not an array."
      | .ok .other => .error "Parsed data is not an array."
    | .openai | .openrouter =>
      match smo content with
      | .error e => .error e
      | .ok (.arr items) => .ok items
      | .ok (.wrappedArr items) => .ok items
      | .ok .other => .error "Parsed data is not an array."
  match dispatched with
  | .ok items =>
    .ok ((items.map (fun item =>
      { loc := item.loc.getD ""
        lastmod := item.lastmod.getD ""
        changefreq := item.changefreq.getD ""
        priority := item.priority.getD (1/2) : SitemapEntry })).filter
          (fun item => item.loc ≠ ""))
  | .error e =>
    if isRateLimitError e then
      .error "API rate limit exceeded while parsing sitemap. Please wait a moment and try again."
    else
      .error ("Failed to get valid sitemap data from the AI. Reason: " ++ e)

/-- The sitemap traversal's mutable state.  `fetchedSitemaps` is ghost
instrumentation recording each sitemap URL the loop fetches (it is appended
exactly when the source calls `fetchWithProxy(currentSitemapUrl)`). -/
structure SitemapState where
  queue : List String
  visited : List String
  allEntries : List SitemapEntry
  fetchedSitemaps : List String
deriving DecidableEq, Repr

/-- googleService.ts lines 920–928: the `for (const entry of entries)` body —
XML-suffixed `loc`s are re-enqueued (if not yet visited), everything else is
appended to `allEntries`. -/
def sitemapEntryStep (s : SitemapState) (entry : SitemapEntry) :
    SitemapState :=
  if endsWithStr (lowerStr entry.loc) ".xml" ∨
      endsWithStr (lowerStr entry.loc) ".xml.gz" then
    if entry.loc ∉ s.visited then { s with queue := s.queue ++ [entry.loc] }
    else s
  else { s with allEntries := s.allEntries ++ [entry] }

/-- googleService.ts lines 909–937: the `while (queue.length > 0)` loop
(fuel-indexed; the inter-iteration delay is timing-only and has no effect on
the computed state). -/
def sitemapLoop (fetchO : String → Except String String)
    (parse : String → Except String (List SitemapEntry)) :
    Nat → SitemapState → SitemapState
  | 0, s => s
  | fuel + 1, s =>
    match s.queue with
    | [] => s
    | current :: rest =>
      let s1 := { s with queue := rest }
      if current ∈ s1.visited then sitemapLoop fetchO parse fuel s1
      else
        let s2 := { s1 with
          visited := s1.visited ++ [current]
          fetchedSitemaps := s1.fetchedSitemaps ++ [current] }
        let s3 :=
          match fetchO current with
          | .error _ => s2
          | .ok content =>
            match parse content with
            | .error _ => s2
            | .ok entries => entries.foldl sitemapEntryStep s2
        sitemapLoop fetchO parse fuel s3

/-- googleService.ts line 897: `line.substring(line.indexOf(':') + 1)`. -/
def afterFirstColon (l : List Char) : List Char :=
  match firstIdxOf ':' l with
  | some i => l.drop (i + 1)
  | none => l

/-- googleService.ts lines 892–907: seed the sitemap queue from
`robots.txt` `sitemap:` lines, falling back to `{origin}/sitemap.xml` when
none yield a URL (or the robots fetch throws). -/
def seedSitemapQueue (origin : String)
    (fetchO : String → Except String String) : List String :=
  let fromRobots : List String :=
    match fetchO (origin ++ "/robots.txt") with
    | .error _ => []
    | .ok robots =>
      let sitemapLines := (splitOnChar '\n' robots.data).filter
        (fun line => startsWithStr (lowerStr ⟨line⟩) "sitemap:")
      sitemapLines.foldl (fun q line =>
        let sitemapUrl := trimStr ⟨afterFirstColon line⟩
        if sitemapUrl ≠ "" then q ++ [sitemapUrl] else q) []
  if fromRobots.isEmpty then [origin ++ "/sitemap.xml"] else fromRobots

/-- googleService.ts lines 884–940, `fetchAllUrlsFromSitemaps`.  Returns the
accumulated entry list paired with the ghost fetched-sitemap log.  When
`new URL(url)` throws (line 890, outside any try), the promise rejects with
an environment-produced `TypeError`; the marker message stands for it. -/
def fetchAllUrlsFromSitemaps (url : String) (agent : AIAgent)
    (apiKey : String)
    (parseURL : String → Option URLInfo)
    (fetchO : String → Except String String)
    (smo : String → Except String SitemapParsedData)
    (fuel : Nat) : Except String (List SitemapEntry × List String) :=
  if apiKey = "" then
    .error (providerStr agent.provider ++ " API key is required.")
  else
    match parseURL url with
    | none => .error "TypeError: Invalid URL"
    | some base =>
      let s0 : SitemapState :=
        { queue := seedSitemapQueue base.origin fetchO
          visited := [], allEntries := [], fetchedSitemaps := [] }
      let s := sitemapLoop fetchO (parseSitemapWithAI agent smo) fuel s0
      .ok (s.allEntries, s.fetchedSitemaps)

/-! ### `analyzeRobotsTxt` / `analyzeAdsTxt` (googleService.ts lines
942–1013 and 1015–1093)

Both functions return the JSON value `JSON.parse` produced, after only
checking `typeof parsedData === 'object' && parsedData !== null` and the
presence of the two required top-level keys (the `as` cast is unchecked in
TS), so the embedding's result type is the JSON value itself. -/

/-- A parsed JSON value. -/
inductive JsonValue where
  | null : JsonValue
  | bool : Bool → JsonValue
  | num : Rat → JsonValue
  | str : String → JsonValue
  | arr : List JsonValue → JsonValue
  | obj : List (String × JsonValue) → JsonValue

/-- JS `'k' in parsedData` after the `typeof parsedData === 'object' &&
parsedData !== null` guard: among the JSON values that pass that guard
(objects, arrays, and — excluded — null), a non-numeric string key is
present only on objects carrying it. -/
def JsonValue.hasKey (j : JsonValue) (k : String) : Bool :=
  match j with
  | .obj fields => fields.any (fun f => f.1 = k)
  | _ => false

/-- The empty `RobotsTxtAnalysis` literal `{ rules: [], sitemaps: [] }`. -/
def emptyRobots : JsonValue := .obj [("rules", .arr []), ("sitemaps", .arr [])]

/-- The empty `AdsTxtAnalysis` literal `{ records: [], malformedLines: [] }`. -/
def emptyAds : JsonValue := .obj [("records", .arr []), ("malformedLines", .arr [])]

/-- googleService.ts lines 1007–1011 (the catch of `analyzeRobotsTxt`). -/
def robotsCatchMessage (e : String) : String :=
  if isRateLimitError e then
    "API rate limit exceeded. Please wait a moment and try again. If the problem persists, check your API plan and billing details."
  else "Failed to get valid robots.txt data from the AI. Reason: " ++ e

/-- googleService.ts lines 1087–1091 (the catch of `analyzeAdsTxt`). -/
def adsCatchMessage (e : String) : String :=
  if isRateLimitError e then
    "API rate limit exceeded. Please wait a moment and try again."
  else "Failed to get valid ads.txt data from the AI. Reason: " ++ e

/-- The shared shape of the two analyzers' try/catch analysis region
(googleService.ts lines 965–1012 resp. 1051–1092), parameterized by the two
required keys, the Gemini empty-extraction early return value, and the
catch's message transform.  Oracles: `gmo content` is the Gemini
`response.text` (line 968/1054), `omo content` the OpenAI/OpenRouter
`result.choices[0].message.content` (line 997/1077, `.error` covering the
non-ok response throw), `jparse` is `JSON.parse`. -/
def wellKnownAnalysisPath (agent : AIAgent)
    (gmo omo : String → Except String String)
    (jparse : String → Except String JsonValue)
    (keyA keyB : String) (emptyResult : JsonValue)
    (catchMsg : String → String)
    (content : String) : Except String JsonValue :=
  let validated : JsonValue → Except String JsonValue := fun parsed =>
    if parsed.hasKey keyA && parsed.hasKey keyB then .ok parsed
    else .error (catchMsg ("Parsed data does not match the expected " ++
      (if keyA = "rules" then "RobotsTxtAnalysis" else "AdsTxtAnalysis") ++
      " structure."))
  match agent.provider with
  | .gemini =>
    match gmo content with
    | .error e => .error (catchMsg e)
    | .ok text =>
      let jsonText := extractJson text
      if jsonText = "" then .ok emptyResult
      else
        match jparse jsonText with
        | .error e => .error (catchMsg e)
        | .ok parsed => validated parsed
  | .openai | .openrouter =>
    match omo content with
    | .error e => .error (catchMsg e)
    | .ok resContent =>
      match jparse resContent with
      | .error e => .error (catchMsg e)
      | .ok parsed => validated parsed

/-- googleService.ts lines 942–1013, `analyzeRobotsTxt`.  The
`new URL(url).origin` computation and the fetch both sit inside the try at
lines 945–950, so a URL-parse failure and a fetch failure alike return the
empty result. -/
def analyzeRobotsTxt (url : String) (agent : AIAgent) (apiKey : String)
    (parseURL : String → Option URLInfo)
    (fetchO : String → Except String String)
    (gmo omo : String → Except String String)
    (jparse : String → Except String JsonValue) : Except String JsonValue :=
  if apiKey = "" then
    .error (providerStr agent.provider ++ " API key is required.")
  else
    match parseURL url with
    | none => .ok emptyRobots
    | some base =>
      match fetchO (base.origin ++ "/robots.txt") with
      | .error _ => .ok emptyRobots
      | .ok content =>
        wellKnownAnalysisPath agent gmo omo jparse "rules" "sitemaps"
          emptyRobots robotsCatchMessage content

/-- googleService.ts lines 1015–1093, `analyzeAdsTxt` (same structure as
`analyzeRobotsTxt`, over `/ads.txt` and the `records`/`malformedLines`
keys). -/
def analyzeAdsTxt (url : String) (agent : AIAgent) (apiKey : String)
    (parseURL : String → Option URLInfo)
    (fetchO : String → Except String String)
    (gmo omo : String → Except String String)
    (jparse : String → Except String JsonValue) : Except String JsonValue :=
  if apiKey = "" then
    .error (providerStr agent.provider ++ " API key is required.")
  else
    match parseURL url with
    | none => .ok emptyAds
    | some base =>
      match fetchO (base.origin ++ "/ads.txt") with
      | .error _ => .ok emptyAds
      | .ok content =>
        wellKnownAnalysisPath agent gmo omo jparse "records" "malformedLines"
          emptyAds adsCatchMessage content

/-- Concrete-input builder for theorems about `calculateCrawlSummary`: a
page with the given url and status and fixed contents. -/
def mkPage (u : String) (st : Int) : CrawledPage :=
  { url := u, status := st, title := "t", description := "d", h1 := "h"
    contentPreview := "c", internalLinks := 0, externalLinks := 0
    metaTags := [], internalLinkUrls := none, externalLinkUrls := none }

/-! ## Helper lemmas -/

theorem crawlSummaryStep_totalPages (acc : CrawlSummary) (p : CrawledPage) :
    (crawlSummaryStep acc p).totalPages = acc.totalPages + 1 := by
  unfold crawlSummaryStep; split_ifs <;> rfl

theorem crawlSummaryStep_healthy (acc : CrawlSummary) (p : CrawledPage) :
    (crawlSummaryStep acc p).healthyPages =
      acc.healthyPages + (if 200 ≤ p.status ∧ p.status < 300 then 1 else 0) := by
  unfold crawlSummaryStep; split_ifs <;> simp_all

theorem crawlSummaryStep_redirects (acc : CrawlSummary) (p : CrawledPage) :
    (crawlSummaryStep acc p).redirects =
      acc.redirects + (if 300 ≤ p.status ∧ p.status < 400 then 1 else 0) := by
  unfold crawlSummaryStep; split_ifs <;> simp_all <;> omega

theorem crawlSummaryStep_clientErrors (acc : CrawlSummary) (p : CrawledPage) :
    (crawlSummaryStep acc p).clientErrors =
      acc.clientErrors + (if 400 ≤ p.status ∧ p.status < 500 then 1 else 0) := by
  unfold crawlSummaryStep; split_ifs <;> simp_all <;> omega

theorem crawlSummaryStep_serverErrors (acc : CrawlSummary) (p : CrawledPage) :
    (crawlSummaryStep acc p).serverErrors =
      acc.serverErrors + (if 500 ≤ p.status then 1 else 0) := by
  unfold crawlSummaryStep; split_ifs <;> simp_all <;> omega

theorem crawlSummary_totalPages (pages : List CrawledPage) :
    ∀ acc : CrawlSummary,
      (pages.foldl crawlSummaryStep acc).totalPages =
        acc.totalPages + pages.length := by
  induction pages with
  | nil => intro acc; simp
  | cons p rest ih =>
    intro acc
    rw [List.foldl_cons, ih, crawlSummaryStep_totalPages]
    simp; omega

theorem crawlSummary_healthy (pages : List CrawledPage) :
    ∀ acc : CrawlSummary,
      (pages.foldl crawlSummaryStep acc).healthyPages =
        acc.healthyPages +
          pages.countP (fun p => decide (200 ≤ p.status ∧ p.status < 300)) := by
  induction pages with
  | nil => intro acc; simp
  | cons p rest ih =>
    intro acc
    rw [List.foldl_cons, ih, crawlSummaryStep_healthy, List.countP_cons]
    by_cases h : 200 ≤ p.status ∧ p.status < 300 <;> simp [h] <;> omega

theorem crawlSummary_redirects (pages : List CrawledPage) :
    ∀ acc : CrawlSummary,
      (pages.foldl crawlSummaryStep acc).redirects =
        acc.redirects +
          pages.countP (fun p => decide (300 ≤ p.status ∧ p.status < 400)) := by
  induction pages with
  | nil => intro acc; simp
  | cons p rest ih =>
    intro acc
    rw [List.foldl_cons, ih, crawlSummaryStep_redirects, List.countP_cons]
    by_cases h : 300 ≤ p.status ∧ p.status < 400 <;> simp [h] <;> omega

theorem crawlSummary_clientErrors (pages : List CrawledPage) :
    ∀ acc : CrawlSummary,
      (pages.foldl crawlSummaryStep acc).clientErrors =
        acc.clientErrors +
          pages.countP (fun p => decide (400 ≤ p.status ∧ p.status < 500)) := by
  induction pages with
  | nil => intro acc; simp
  | cons p rest ih =>
    intro acc
    rw [List.foldl_cons, ih, crawlSummaryStep_clientErrors, List.countP_cons]
    by_cases h : 400 ≤ p.status ∧ p.status < 500 <;> simp [h] <;> omega

theorem crawlSummary_serverErrors (pages : List CrawledPage) :
    ∀ acc : CrawlSummary,
      (pages.foldl crawlSummaryStep acc).serverErrors =
        acc.serverErrors +
          pages.countP (fun p => decide (500 ≤ p.status)) := by
  induction pages with
  | nil => intro acc; simp
  | cons p rest ih =>
    intro acc
    rw [List.foldl_cons, ih, crawlSummaryStep_serverErrors, List.countP_cons]
    by_cases h : 500 ≤ p.status <;> simp [h] <;> omega

/-- The four range counts partition a list in which every status is
`≥ 200`. -/
theorem countP_status_partition (pages : List CrawledPage)
    (h : ∀ p ∈ pages, 200 ≤ p.status) :
    pages.countP (fun p => decide (200 ≤ p.status ∧ p.status < 300)) +
      pages.countP (fun p => decide (300 ≤ p.status ∧ p.status < 400)) +
      pages.countP (fun p => decide (400 ≤ p.status ∧ p.status < 500)) +
      pages.countP (fun p => decide (500 ≤ p.status)) = pages.length := by
  induction pages with
  | nil => simp
  | cons p rest ih =>
    have hp := h p (by simp)
    have hrest := ih (fun q hq => h q (by simp [hq]))
    simp only [List.countP_cons, List.length_cons]
    split_ifs <;> rename_i g1 g2 g3 g4 <;>
      simp only [decide_eq_true_eq] at g1 g2 g3 g4 <;> omega

theorem firstIdxOf_nil (c : Char) : firstIdxOf c [] = none := rfl

theorem firstIdxOf_cons (c x : Char) (xs : List Char) :
    firstIdxOf c (x :: xs) =
      if x = c then some 0 else (firstIdxOf c xs).map (· + 1) := rfl

theorem lastIdxOf_nil (c : Char) : lastIdxOf c [] = none := rfl

theorem lastIdxOf_cons (c x : Char) (xs : List Char) :
    lastIdxOf c (x :: xs) =
      match lastIdxOf c xs with
      | some i => some (i + 1)
      | none => if x = c then some 0 else none := rfl

theorem firstIdxOf_eq_none_of_not_mem (c : Char) (l : List Char)
    (h : c ∉ l) : firstIdxOf c l = none := by
  induction l with
  | nil => rfl
  | cons x xs ih =>
    have hx : x ≠ c := fun hxc => h (hxc ▸ List.mem_cons_self x xs)
    have hxs : c ∉ xs := fun hm => h (List.mem_cons_of_mem x hm)
    rw [firstIdxOf_cons, if_neg hx, ih hxs]
    rfl

theorem firstIdxOf_cons_self (c : Char) (l : List Char) :
    firstIdxOf c (c :: l) = some 0 := by
  rw [firstIdxOf_cons, if_pos rfl]

theorem firstIdxOf_append_of_not_mem (c : Char) (a l : List Char)
    (h : c ∉ a) :
    firstIdxOf c (a ++ l) = (firstIdxOf c l).map (a.length + ·) := by
  induction a with
  | nil =>
    rw [List.nil_append]
    cases firstIdxOf c l <;> simp
  | cons x a ih =>
    have hx : x ≠ c := fun hxc => h (hxc ▸ List.mem_cons_self x a)
    have ha : c ∉ a := fun hm => h (List.mem_cons_of_mem x hm)
    rw [List.cons_append, firstIdxOf_cons, if_neg hx, ih ha]
    cases firstIdxOf c l with
    | none => rfl
    | some k =>
      simp only [Option.map_some', List.length_cons]
      congr 1
      omega

theorem lastIdxOf_eq_none_of_not_mem (c : Char) (l : List Char)
    (h : c ∉ l) : lastIdxOf c l = none := by
  induction l with
  | nil => rfl
  | cons x xs ih =>
    have hx : x ≠ c := fun hxc => h (hxc ▸ List.mem_cons_self x xs)
    have hxs : c ∉ xs := fun hm => h (List.mem_cons_of_mem x hm)
    rw [lastIdxOf_cons, ih hxs]
    simp [hx]

theorem lastIdxOf_append_of_not_mem (c : Char) (a b : List Char)
    (h : c ∉ b) : lastIdxOf c (a ++ b) = lastIdxOf c a := by
  induction a with
  | nil =>
    rw [List.nil_append, lastIdxOf_eq_none_of_not_mem c b h]
    rfl
  | cons x a ih =>
    rw [List.cons_append, lastIdxOf_cons, lastIdxOf_cons, ih]

theorem lastIdxOf_append_cons_self (c : Char) (a post : List Char)
    (h : c ∉ post) : lastIdxOf c (a ++ c :: post) = some a.length := by
  induction a with
  | nil =>
    rw [List.nil_append, lastIdxOf_cons, lastIdxOf_eq_none_of_not_mem c post h]
    simp
  | cons x a ih =>
    rw [List.cons_append, lastIdxOf_cons, ih]
    simp

theorem lastIdxOf_lt_length (c : Char) (l : List Char) (i : Nat)
    (h : lastIdxOf c l = some i) : i < l.length := by
  induction l generalizing i with
  | nil => simp [lastIdxOf_nil] at h
  | cons x xs ih =>
    rw [lastIdxOf_cons] at h
    cases hxs : lastIdxOf c xs with
    | some j =>
      rw [hxs] at h
      have := ih j hxs
      simp only [Option.some.injEq] at h
      simp only [List.length_cons]
      omega
    | none =>
      rw [hxs] at h
      by_cases hx : x = c
      · rw [if_pos hx] at h
        simp only [Option.some.injEq] at h
        simp [← h]
      · rw [if_neg hx] at h
        exact absurd h (by simp)

theorem jsMin_ge (n : Nat) (a b : Option Nat)
    (hA : ∀ i ∈ a, n ≤ i) (hB : ∀ i ∈ b, n ≤ i) :
    ∀ s ∈ jsMin a b, n ≤ s := by
  intro s hs
  cases a with
  | none =>
    cases b with
    | none => simp [jsMin] at hs
    | some j =>
      simp only [jsMin, Option.mem_def, Option.some.injEq] at hs
      exact hs ▸ hB j rfl
  | some i =>
    cases b with
    | none =>
      simp only [jsMin, Option.mem_def, Option.some.injEq] at hs
      exact hs ▸ hA i rfl
    | some j =>
      simp only [jsMin, Option.mem_def, Option.some.injEq] at hs
      exact hs ▸ le_min (hA i rfl) (hB j rfl)

theorem jsMax_lt (n : Nat) (a b : Option Nat)
    (hA : ∀ i ∈ a, i < n) (hB : ∀ i ∈ b, i < n) :
    ∀ s ∈ jsMax a b, s < n := by
  intro s hs
  cases a with
  | none =>
    cases b with
    | none => simp [jsMax] at hs
    | some j =>
      simp only [jsMax, Option.mem_def, Option.some.injEq] at hs
      exact hs ▸ hB j rfl
  | some i =>
    cases b with
    | none =>
      simp only [jsMax, Option.mem_def, Option.some.injEq] at hs
      exact hs ▸ hA i rfl
    | some j =>
      simp only [jsMax, Option.mem_def, Option.some.injEq] at hs
      exact hs ▸ max_lt (hA i rfl) (hB j rfl)

theorem jsMin_left (i : Nat) (b : Option Nat) (hb : ∀ j ∈ b, i ≤ j) :
    jsMin (some i) b = some i := by
  cases b with
  | none => rfl
  | some j =>
    have := hb j rfl
    simp [jsMin, min_eq_left this]

theorem jsMin_right (i : Nat) (a : Option Nat) (ha : ∀ j ∈ a, i ≤ j) :
    jsMin a (some i) = some i := by
  cases a with
  | none => rfl
  | some j =>
    have := ha j rfl
    simp [jsMin, min_eq_right this]

theorem jsMax_left (i : Nat) (b : Option Nat) (hb : ∀ j ∈ b, j ≤ i) :
    jsMax (some i) b = some i := by
  cases b with
  | none => rfl
  | some j =>
    have := hb j rfl
    simp [jsMax, max_eq_left this]

theorem jsMax_right (i : Nat) (a : Option Nat) (ha : ∀ j ∈ a, j ≤ i) :
    jsMax a (some i) = some i := by
  cases a with
  | none => rfl
  | some j =>
    have := ha j rfl
    simp [jsMax, max_eq_right this]

/-- `extractJsonL` returns `[]` whenever every opening bracket (if any)
comes after every closing bracket (if any): the text splits as an
opening-free part followed by a closing-free part. -/
theorem extractJsonL_no_span (a b : List Char)
    (ha : ∀ c ∈ a, c ≠ '\x7b' ∧ c ≠ '[')
    (hb : ∀ c ∈ b, c ≠ '\x7d' ∧ c ≠ ']') :
    extractJsonL (a ++ b) = [] := by
  have hao : '\x7b' ∉ a := fun h => ((ha _ h).1 rfl)
  have has : '[' ∉ a := fun h => ((ha _ h).2 rfl)
  have hbc : '\x7d' ∉ b := fun h => ((hb _ h).1 rfl)
  have hbs : ']' ∉ b := fun h => ((hb _ h).2 rfl)
  have hstart : ∀ s ∈ jsMin (firstIdxOf '\x7b' (a ++ b))
      (firstIdxOf '[' (a ++ b)), a.length ≤ s := by
    apply jsMin_ge
    · rw [firstIdxOf_append_of_not_mem _ _ _ hao]
      intro i hi
      rcases Option.map_eq_some'.mp hi with ⟨k, _, rfl⟩
      omega
    · rw [firstIdxOf_append_of_not_mem _ _ _ has]
      intro i hi
      rcases Option.map_eq_some'.mp hi with ⟨k, _, rfl⟩
      omega
  have hend : ∀ s ∈ jsMax (lastIdxOf '\x7d' (a ++ b))
      (lastIdxOf ']' (a ++ b)), s < a.length := by
    apply jsMax_lt
    · rw [lastIdxOf_append_of_not_mem _ _ _ hbc]
      intro i hi
      exact lastIdxOf_lt_length _ _ _ hi
    · rw [lastIdxOf_append_of_not_mem _ _ _ hbs]
      intro i hi
      exact lastIdxOf_lt_length _ _ _ hi
  unfold extractJsonL
  split
  · rfl
  · rename_i s hm
    split
    · rfl
    · rename_i e hx
      have h1 : a.length ≤ s := hstart s (by rw [hm]; exact rfl)
      have h2 : e < a.length := hend e (by rw [hx]; exact rfl)
      rw [if_pos (by omega)]

/-- `extractJsonL` on a text decomposed as (opening-free prose) + first
opening bracket + middle + last closing bracket + (closing-free prose)
returns exactly the bracketed span. -/
theorem extractJsonL_span (pre mid post : List Char) (o cl : Char)
    (ho : o = '\x7b' ∨ o = '[') (hcl : cl = '\x7d' ∨ cl = ']')
    (hpre : ∀ c ∈ pre, c ≠ '\x7b' ∧ c ≠ '[')
    (hpost : ∀ c ∈ post, c ≠ '\x7d' ∧ c ≠ ']') :
    extractJsonL (pre ++ o :: (mid ++ cl :: post)) = o :: (mid ++ [cl]) := by
  have hao : '\x7b' ∉ pre := fun h => ((hpre _ h).1 rfl)
  have has : '[' ∉ pre := fun h => ((hpre _ h).2 rfl)
  have hbc : '\x7d' ∉ post := fun h => ((hpost _ h).1 rfl)
  have hbs : ']' ∉ post := fun h => ((hpost _ h).2 rfl)
  have hassoc : pre ++ o :: (mid ++ cl :: post) =
      (pre ++ o :: mid) ++ cl :: post := by simp
  have hA2len : (pre ++ o :: mid).length = pre.length + mid.length + 1 := by
    simp only [List.length_append, List.length_cons]
    omega
  have hstart : jsMin (firstIdxOf '\x7b' (pre ++ o :: (mid ++ cl :: post)))
      (firstIdxOf '[' (pre ++ o :: (mid ++ cl :: post))) = some pre.length := by
    rcases ho with ho | ho <;> subst ho
    · rw [firstIdxOf_append_of_not_mem _ _ _ hao, firstIdxOf_cons_self]
      simp only [Option.map_some', Nat.add_zero]
      apply jsMin_left
      rw [firstIdxOf_append_of_not_mem _ _ _ has]
      intro j hj
      rcases Option.map_eq_some'.mp hj with ⟨k, _, rfl⟩
      omega
    · rw [firstIdxOf_append_of_not_mem _ _ _ has, firstIdxOf_cons_self]
      simp only [Option.map_some', Nat.add_zero]
      apply jsMin_right
      rw [firstIdxOf_append_of_not_mem _ _ _ hao]
      intro j hj
      rcases Option.map_eq_some'.mp hj with ⟨k, _, rfl⟩
      omega
  have hend : jsMax (lastIdxOf '\x7d' (pre ++ o :: (mid ++ cl :: post)))
      (lastIdxOf ']' (pre ++ o :: (mid ++ cl :: post))) =
      some (pre ++ o :: mid).length := by
    rcases hcl with hcl | hcl <;> subst hcl
    · rw [hassoc, lastIdxOf_append_cons_self _ _ _ hbc]
      apply jsMax_left
      rw [lastIdxOf_append_of_not_mem _ _ _
        (by simp only [List.mem_cons]; rintro (h | h); exact absurd h (by decide); exact hbs h)]
      intro j hj
      exact le_of_lt (lastIdxOf_lt_length _ _ _ hj)
    · rw [hassoc, lastIdxOf_append_cons_self _ _ _ hbs]
      apply jsMax_right
      rw [lastIdxOf_append_of_not_mem _ _ _
        (by simp only [List.mem_cons]; rintro (h | h); exact absurd h (by decide); exact hbc h)]
      intro j hj
      exact le_of_lt (lastIdxOf_lt_length _ _ _ hj)
  unfold extractJsonL
  rw [hstart, hend]
  dsimp only
  rw [if_neg (by omega), substringList, List.drop_left]
  have htake : (pre ++ o :: mid).length + 1 - pre.length = mid.length + 2 := by
    omega
  rw [htake, List.take_cons]
  congr 1
  rw [List.take_append_eq_append_take]
  simp
  omega

theorem fetchPage_url (fetchO : String → Except String String) (u : String) :
    (fetchPage fetchO u).url = u := by
  unfold fetchPage
  cases fetchO u <;> rfl

theorem fetchFailedPage_url (p : FetchedPage) :
    (fetchFailedPage p).url = p.url := rfl

theorem analysisFailedPage_url (msg : String) (p : FetchedPage) :
    (analysisFailedPage msg p).url = p.url := rfl

theorem fetchPage_error (fetchO : String → Except String String)
    (v m : String) (hm : fetchO v = .error m) :
    fetchPage fetchO v =
      { url := v, html := none, error := some m
        status := match statusFragment m.data with
          | some n => (n : Int)
          | none => 500 } := by
  unfold fetchPage
  rw [hm]

theorem map_fetchPage_url (urls : List String)
    (fetchO : String → Except String String) :
    (urls.map (fetchPage fetchO)).map (fun p => p.url) = urls := by
  induction urls with
  | nil => rfl
  | cons v rest ih => simp [fetchPage_url, ih]

/-- The fetch-failed/fetch-succeeded filters partition `pagesWithHtml` up to
permutation. -/
theorem fetchedPages_partition (L : List FetchedPage) :
    List.Perm (L.filter (·.html.isNone) ++ L.filter (·.html.isSome)) L := by
  have h := List.filter_append_perm (fun p => p.html.isNone) L
  have heq : L.filter (fun p => !p.html.isNone) =
      L.filter (fun p => p.html.isSome) := by
    apply List.filter_congr
    intro x _
    cases x.html <;> rfl
  rw [heq] at h
  exact h

/-- `analyzePageBatch` with a non-empty key, written via the partition
helpers. -/
theorem analyzePageBatch_eq (urls : List String) (agent : AIAgent)
    (apiKey : String) (fetchO : String → Except String String)
    (mo : List (String × String) → Except String ParsedData)
    (hk : apiKey ≠ "") :
    analyzePageBatch urls agent apiKey fetchO mo =
      if (validPagesOf urls fetchO).length = 0 then
        .ok (fetchFailedResults urls fetchO)
      else
        match modelDispatch agent mo
            ((validPagesOf urls fetchO).map fun p => (p.url, p.html.getD "")) with
        | .ok items => .ok (fetchFailedResults urls fetchO ++ items.map rawItemToPage)
        | .error e =>
          .ok (fetchFailedResults urls fetchO ++
            (validPagesOf urls fetchO).map
              (analysisFailedPage (analysisErrorMessage e))) := by
  unfold analyzePageBatch validPagesOf fetchFailedResults
  rw [if_neg hk]

/-- Whatever the model does, the result of a keyed `analyzePageBatch` is a
normal return that starts with the fetch-failure placeholders. -/
theorem analyzePageBatch_shape (urls : List String) (agent : AIAgent)
    (apiKey : String) (fetchO : String → Except String String)
    (mo : List (String × String) → Except String ParsedData)
    (hk : apiKey ≠ "") :
    ∃ rest, analyzePageBatch urls agent apiKey fetchO mo =
      .ok (fetchFailedResults urls fetchO ++ rest) := by
  rw [analyzePageBatch_eq urls agent apiKey fetchO mo hk]
  split
  · exact ⟨[], by simp⟩
  · split
    · exact ⟨_, rfl⟩
    · exact ⟨_, rfl⟩

theorem fetchFailedResults_countP (urls : List String)
    (fetchO : String → Except String String) (u m : String)
    (hm : fetchO u = .error m) :
    (fetchFailedResults urls fetchO).countP (fun p => p.url == u) =
      urls.count u := by
  induction urls with
  | nil => rfl
  | cons v rest ih =>
    rw [List.count_cons]
    unfold fetchFailedResults at ih ⊢
    rw [List.map_cons, List.filter_cons]
    cases hv : fetchO v with
    | ok html =>
      have hvu : (v == u) = false := by
        rw [beq_eq_false_iff_ne]
        intro h
        rw [h, hm] at hv
        exact absurd hv (by simp)
      simp only [fetchPage, hv, Option.isNone_some, Bool.false_eq_true,
        if_false, cond_false]
      rw [ih, hvu]
      simp
    | error m' =>
      rw [fetchPage_error fetchO v m' hv]
      simp only [Option.isNone_none, if_true, cond_true, List.map_cons,
        List.countP_cons]
      rw [ih]
      have hurl : (fetchFailedPage
          { url := v, html := none, error := some m'
            status := match statusFragment m'.data with
              | some n => (n : Int)
              | none => 500 }).url = v := rfl
      by_cases hvu : v = u
      · subst hvu
        simp [hurl]
      · have h1 : (v == u) = false := by rwa [beq_eq_false_iff_ne]
        simp [hurl, h1]

theorem fetchFailedResults_mem (urls : List String)
    (fetchO : String → Except String String) (p : CrawledPage)
    (hp : p ∈ fetchFailedResults urls fetchO) :
    ∃ v ∈ urls, p = fetchFailedPage (fetchPage fetchO v) := by
  unfold fetchFailedResults at hp
  rcases List.mem_map.mp hp with ⟨q, hq, rfl⟩
  rcases List.mem_filter.mp hq with ⟨hq2, _⟩
  rcases List.mem_map.mp hq2 with ⟨v, hv, rfl⟩
  exact ⟨v, hv, rfl⟩

theorem sitemapLoop_succ (fetchO : String → Except String String)
    (parse : String → Except String (List SitemapEntry)) (fuel : Nat)
    (s : SitemapState) :
    sitemapLoop fetchO parse (fuel + 1) s =
      match s.queue with
      | [] => s
      | current :: rest =>
        let s1 := { s with queue := rest }
        if current ∈ s1.visited then sitemapLoop fetchO parse fuel s1
        else
          let s2 := { s1 with
            visited := s1.visited ++ [current]
            fetchedSitemaps := s1.fetchedSitemaps ++ [current] }
          let s3 :=
            match fetchO current with
            | .error _ => s2
            | .ok content =>
              match parse content with
              | .error _ => s2
              | .ok entries => entries.foldl sitemapEntryStep s2
          sitemapLoop fetchO parse fuel s3 := rfl

theorem sitemapEntryStep_allEntries_sub (s : SitemapState)
    (entry : SitemapEntry) :
    ∀ e ∈ (sitemapEntryStep s entry).allEntries,
      e ∈ s.allEntries ∨
        (endsWithStr (lowerStr e.loc) ".xml" = false ∧
          endsWithStr (lowerStr e.loc) ".xml.gz" = false) := by
  intro e he
  unfold sitemapEntryStep at he
  split_ifs at he with h1 h2
  · exact Or.inl he
  · exact Or.inl he
  · rcases List.mem_append.mp he with h | h
    · exact Or.inl h
    · have he' : e = entry := by simpa using h
      subst he'
      push_neg at h1
      exact Or.inr ⟨Bool.not_eq_true _ ▸ h1.1, Bool.not_eq_true _ ▸ h1.2⟩

theorem sitemapEntryStep_visited (s : SitemapState) (entry : SitemapEntry) :
    (sitemapEntryStep s entry).visited = s.visited := by
  unfold sitemapEntryStep; split_ifs <;> rfl

theorem sitemapEntryStep_fetched (s : SitemapState) (entry : SitemapEntry) :
    (sitemapEntryStep s entry).fetchedSitemaps = s.fetchedSitemaps := by
  unfold sitemapEntryStep; split_ifs <;> rfl

theorem foldl_sitemapEntryStep_visited (entries : List SitemapEntry) :
    ∀ s : SitemapState,
      (entries.foldl sitemapEntryStep s).visited = s.visited := by
  induction entries with
  | nil => intro s; rfl
  | cons entry rest ih =>
    intro s
    rw [List.foldl_cons, ih, sitemapEntryStep_visited]

theorem foldl_sitemapEntryStep_fetched (entries : List SitemapEntry) :
    ∀ s : SitemapState,
      (entries.foldl sitemapEntryStep s).fetchedSitemaps =
        s.fetchedSitemaps := by
  induction entries with
  | nil => intro s; rfl
  | cons entry rest ih =>
    intro s
    rw [List.foldl_cons, ih, sitemapEntryStep_fetched]

theorem foldl_sitemapEntryStep_allEntries (entries : List SitemapEntry) :
    ∀ s : SitemapState,
      (∀ e ∈ s.allEntries,
        endsWithStr (lowerStr e.loc) ".xml" = false ∧
          endsWithStr (lowerStr e.loc) ".xml.gz" = false) →
      ∀ e ∈ (entries.foldl sitemapEntryStep s).allEntries,
        endsWithStr (lowerStr e.loc) ".xml" = false ∧
          endsWithStr (lowerStr e.loc) ".xml.gz" = false := by
  induction entries with
  | nil => intro s hs; exact hs
  | cons entry rest ih =>
    intro s hs
    rw [List.foldl_cons]
    apply ih
    intro e he
    rcases sitemapEntryStep_allEntries_sub s entry e he with h | h
    · exact hs e h
    · exact h

theorem sitemapLoop_allEntries (fetchO : String → Except String String)
    (parse : String → Except String (List SitemapEntry)) :
    ∀ (fuel : Nat) (s : SitemapState),
      (∀ e ∈ s.allEntries,
        endsWithStr (lowerStr e.loc) ".xml" = false ∧
          endsWithStr (lowerStr e.loc) ".xml.gz" = false) →
      ∀ e ∈ (sitemapLoop fetchO parse fuel s).allEntries,
        endsWithStr (lowerStr e.loc) ".xml" = false ∧
          endsWithStr (lowerStr e.loc) ".xml.gz" = false := by
  intro fuel
  induction fuel with
  | zero => intro s hs; exact hs
  | succ fuel ih =>
    intro s hs
    rw [sitemapLoop_succ]
    cases hq : s.queue with
    | nil => exact hs
    | cons current rest =>
      by_cases hv : current ∈ ({ s with queue := rest } : SitemapState).visited
      · simp only [hv, if_true]
        exact ih _ hs
      · simp only [hv, if_false]
        cases hfo : fetchO current with
        | error msg => exact ih _ hs
        | ok content =>
          dsimp only
          cases hpc : parse content with
          | error msg => exact ih _ hs
          | ok entries =>
            apply ih
            exact foldl_sitemapEntryStep_allEntries entries _ hs

theorem sitemapLoop_fetched_nodup (fetchO : String → Except String String)
    (parse : String → Except String (List SitemapEntry)) :
    ∀ (fuel : Nat) (s : SitemapState),
      s.fetchedSitemaps.Nodup →
      (∀ x ∈ s.fetchedSitemaps, x ∈ s.visited) →
      (sitemapLoop fetchO parse fuel s).fetchedSitemaps.Nodup ∧
        ∀ x ∈ (sitemapLoop fetchO parse fuel s).fetchedSitemaps,
          x ∈ (sitemapLoop fetchO parse fuel s).visited := by
  intro fuel
  induction fuel with
  | zero => intro s h1 h2; exact ⟨h1, h2⟩
  | succ fuel ih =>
    intro s h1 h2
    rw [sitemapLoop_succ]
    cases hq : s.queue with
    | nil => exact ⟨h1, h2⟩
    | cons current rest =>
      by_cases hv : current ∈ ({ s with queue := rest } : SitemapState).visited
      · simp only [hv, if_true]
        exact ih _ h1 h2
      · simp only [hv, if_false]
        have hcf : current ∉ s.fetchedSitemaps := fun hc => hv (h2 current hc)
        have h1' : (s.fetchedSitemaps ++ [current]).Nodup := by
          simp [List.nodup_append, h1, hcf]
        have h2' : ∀ x ∈ s.fetchedSitemaps ++ [current],
            x ∈ s.visited ++ [current] := by
          intro x hx
          rcases List.mem_append.mp hx with hx | hx
          · exact List.mem_append.mpr (Or.inl (h2 x hx))
          · exact List.mem_append.mpr (Or.inr hx)
        cases hfo : fetchO current with
        | error msg => exact ih _ h1' h2'
        | ok content =>
          dsimp only
          cases hpc : parse content with
          | error msg => exact ih _ h1' h2'
          | ok entries =>
            apply ih
            · rw [foldl_sitemapEntryStep_fetched]
              exact h1'
            · rw [foldl_sitemapEntryStep_fetched,
                foldl_sitemapEntryStep_visited]
              exact h2'

theorem crawlLoop_succ (fetchLinksO : String → Option (List String))
    (resolveO : String → String → Option URLInfo)
    (baseHost : String) (crawlDepth : Nat) (fuel : Nat) (s : CrawlState) :
    crawlLoop fetchLinksO resolveO baseHost crawlDepth (fuel + 1) s =
      match s.queue.get? s.i with
      | none => s
      | some (url, depth) =>
        let s1 := { s with i := s.i + 1 }
        if crawlDepth ≤ depth then
          crawlLoop fetchLinksO resolveO baseHost crawlDepth fuel s1
        else
          let s2 := { s1 with fetched := s1.fetched ++ [(url, depth)] }
          match fetchLinksO url with
          | none => crawlLoop fetchLinksO resolveO baseHost crawlDepth fuel s2
          | some hrefs =>
            crawlLoop fetchLinksO resolveO baseHost crawlDepth fuel
              (hrefs.foldl (processLink baseHost url depth resolveO) s2) := rfl

theorem processLink_fetched (bh pu : String) (d : Nat)
    (ro : String → String → Option URLInfo) (s : CrawlState) (href : String) :
    (processLink bh pu d ro s href).fetched = s.fetched := by
  unfold processLink
  by_cases h1 : href = "" ∨ startsWithStr href "mailto:" = true ∨
      startsWithStr href "tel:" = true
  · rw [if_pos h1]
  · rw [if_neg h1]
    cases ro href pu with
    | none => rfl
    | some u => dsimp only; split_ifs <;> rfl

theorem foldl_processLink_fetched (bh pu : String) (d : Nat)
    (ro : String → String → Option URLInfo) (hrefs : List String) :
    ∀ s : CrawlState,
      (hrefs.foldl (processLink bh pu d ro) s).fetched = s.fetched := by
  induction hrefs with
  | nil => intro s; rfl
  | cons href rest ih =>
    intro s
    rw [List.foldl_cons, ih, processLink_fetched]

theorem processLink_found_inv (parseURL : String → Option URLInfo)
    (ro : String → String → Option URLInfo) (bh pu : String) (d : Nat)
    (hwb : ∀ href b u, ro href b = some u →
      (parseURL (stripFragment u.href)).map (·.hostname) = some u.hostname)
    (s : CrawlState) (href : String)
    (hs : ∀ x ∈ s.foundUrls, (parseURL x).map (·.hostname) = some bh) :
    ∀ x ∈ (processLink bh pu d ro s href).foundUrls,
      (parseURL x).map (·.hostname) = some bh := by
  intro x hx
  unfold processLink at hx
  by_cases h1 : href = "" ∨ startsWithStr href "mailto:" = true ∨
      startsWithStr href "tel:" = true
  · rw [if_pos h1] at hx
    exact hs x hx
  · rw [if_neg h1] at hx
    cases hro : ro href pu with
    | none => rw [hro] at hx; exact hs x hx
    | some u =>
      rw [hro] at hx
      dsimp only at hx
      split_ifs at hx with h2 h3
      · exact hs x hx
      · rcases List.mem_append.mp hx with h | h
        · exact hs x h
        · have hx' : x = stripFragment u.href := by simpa using h
          subst hx'
          rw [hwb href pu u hro, h3.1]
      · exact hs x hx

theorem foldl_processLink_found (parseURL : String → Option URLInfo)
    (ro : String → String → Option URLInfo) (bh pu : String) (d : Nat)
    (hwb : ∀ href b u, ro href b = some u →
      (parseURL (stripFragment u.href)).map (·.hostname) = some u.hostname)
    (hrefs : List String) :
    ∀ s : CrawlState,
      (∀ x ∈ s.foundUrls, (parseURL x).map (·.hostname) = some bh) →
      ∀ x ∈ (hrefs.foldl (processLink bh pu d ro) s).foundUrls,
        (parseURL x).map (·.hostname) = some bh := by
  induction hrefs with
  | nil => intro s hs; exact hs
  | cons href rest ih =>
    intro s hs
    rw [List.foldl_cons]
    exact ih _ (processLink_found_inv parseURL ro bh pu d hwb s href hs)

theorem crawlLoop_inv (fetchLinksO : String → Option (List String))
    (resolveO : String → String → Option URLInfo)
    (parseURL : String → Option URLInfo) (bh : String) (crawlDepth : Nat)
    (hwb : ∀ href b u, resolveO href b = some u →
      (parseURL (stripFragment u.href)).map (·.hostname) = some u.hostname) :
    ∀ (fuel : Nat) (s : CrawlState),
      (∀ x ∈ s.foundUrls, (parseURL x).map (·.hostname) = some bh) →
      (∀ pd ∈ s.fetched, pd.2 < crawlDepth) →
      (∀ x ∈ (crawlLoop fetchLinksO resolveO bh crawlDepth fuel s).foundUrls,
        (parseURL x).map (·.hostname) = some bh) ∧
      (∀ pd ∈ (crawlLoop fetchLinksO resolveO bh crawlDepth fuel s).fetched,
        pd.2 < crawlDepth) := by
  intro fuel
  induction fuel with
  | zero => intro s hf hd; exact ⟨hf, hd⟩
  | succ fuel ih =>
    intro s hf hd
    rw [crawlLoop_succ]
    cases hq : s.queue.get? s.i with
    | none => exact ⟨hf, hd⟩
    | some p =>
      rcases p with ⟨url, depth⟩
      dsimp only
      by_cases hdep : crawlDepth ≤ depth
      · rw [if_pos hdep]
        exact ih _ hf hd
      · rw [if_neg hdep]
        have hd' : ∀ pd ∈ s.fetched ++ [(url, depth)], pd.2 < crawlDepth := by
          intro pd hpd
          rcases List.mem_append.mp hpd with h | h
          · exact hd pd h
          · have : pd = (url, depth) := by simpa using h
            subst this
            omega
        cases hfo : fetchLinksO url with
        | none => exact ih _ hf hd'
        | some hrefs =>
          dsimp only
          apply ih
          · exact foldl_processLink_found parseURL resolveO bh url depth hwb
              hrefs _ hf
          · rw [foldl_processLink_fetched]
            exact hd'

/-! ## Claim C9 (confirmed) -/

/-- C9: `extractJson` returns the span from the first `'\x7b'`/`'['`
(whichever comes first — the prose before it contains neither) to the last
`'\x7d'`/`']'` (the prose after it contains neither), discards the
surrounding prose, returns the empty string when the text has no opening
bracket or when the last closing bracket precedes the first opening bracket
(first conjunct, with the text split as an opening-free part followed by a
closing-free part), and on `"Here you go: [{...}] Thanks!"` yields exactly
`"[{...}]"`. -/
theorem C9_extractJson_span_heuristic :
    (∀ a b : List Char, (∀ c ∈ a, c ≠ '\x7b' ∧ c ≠ '[') →
      (∀ c ∈ b, c ≠ '\x7d' ∧ c ≠ ']') → extractJson ⟨a ++ b⟩ = "") ∧
    (∀ (pre mid post : List Char) (o cl : Char),
      (o = '\x7b' ∨ o = '[') → (cl = '\x7d' ∨ cl = ']') →
      (∀ c ∈ pre, c ≠ '\x7b' ∧ c ≠ '[') →
      (∀ c ∈ post, c ≠ '\x7d' ∧ c ≠ ']') →
      extractJson ⟨pre ++ o :: (mid ++ cl :: post)⟩ = ⟨o :: (mid ++ [cl])⟩) ∧
    extractJson "Here you go: [{...}] Thanks!" = "[{...}]" := by
  refine ⟨?_, ?_, by decide⟩
  · intro a b ha hb
    show (⟨extractJsonL (a ++ b)⟩ : String) = ""
    rw [extractJsonL_no_span a b ha hb]
  · intro pre mid post o cl ho hcl hpre hpost
    show (⟨extractJsonL (pre ++ o :: (mid ++ cl :: post))⟩ : String) = _
    rw [extractJsonL_span pre mid post o cl ho hcl hpre hpost]

/-- Witness for C9's theorem: the span conjunct applied at a concrete
decomposition. -/
theorem C9_extractJson_span_heuristic_witness :
    extractJson ⟨"Result: ".data ++ ('[' :: ("1, 2".data ++ (']' :: " done".data)))⟩ =
      ⟨'[' :: ("1, 2".data ++ [']'])⟩ :=
  C9_extractJson_span_heuristic.2.1 "Result: ".data "1, 2".data " done".data
    '[' ']' (Or.inr rfl) (Or.inr rfl) (by decide) (by decide)

/-! ## Claim C5 (corrected) -/

/-- C5 counterexample: the claim's bucket-sum equation fails on the code.
For a single page whose status is `100`, `calculateCrawlSummary` counts it
in `totalPages` but in none of the four buckets, so
`healthyPages + redirects + clientErrors + serverErrors = 0 ≠ 1 =
totalPages`. -/
theorem C5_statusBelow200_breaks_bucket_sum :
    (calculateCrawlSummary [mkPage "https://example.com/a" 100]).totalPages = 1 ∧
    (calculateCrawlSummary [mkPage "https://example.com/a" 100]).healthyPages +
      (calculateCrawlSummary [mkPage "https://example.com/a" 100]).redirects +
      (calculateCrawlSummary [mkPage "https://example.com/a" 100]).clientErrors +
      (calculateCrawlSummary [mkPage "https://example.com/a" 100]).serverErrors
      = 0 := by
  decide

/-- C5 (amended): `calculateCrawlSummary` is deterministic, `totalPages`
equals the list length, the buckets are the mutually exclusive ranges
2xx / 3xx / 4xx / `status ≥ 500` (the last bucket is not capped at 599), and
when every page's status is at least 200 the four buckets sum to
`totalPages` (a status below 200 is counted in `totalPages` but in no
bucket). -/
theorem C5_summary_buckets (pages : List CrawledPage)
    (h : ∀ p ∈ pages, 200 ≤ p.status) :
    calculateCrawlSummary pages = calculateCrawlSummary pages ∧
    (calculateCrawlSummary pages).totalPages = pages.length ∧
    (calculateCrawlSummary pages).healthyPages =
      pages.countP (fun p => decide (200 ≤ p.status ∧ p.status < 300)) ∧
    (calculateCrawlSummary pages).redirects =
      pages.countP (fun p => decide (300 ≤ p.status ∧ p.status < 400)) ∧
    (calculateCrawlSummary pages).clientErrors =
      pages.countP (fun p => decide (400 ≤ p.status ∧ p.status < 500)) ∧
    (calculateCrawlSummary pages).serverErrors =
      pages.countP (fun p => decide (500 ≤ p.status)) ∧
    (calculateCrawlSummary pages).healthyPages +
      (calculateCrawlSummary pages).redirects +
      (calculateCrawlSummary pages).clientErrors +
      (calculateCrawlSummary pages).serverErrors =
      (calculateCrawlSummary pages).totalPages := by
  unfold calculateCrawlSummary
  rw [crawlSummary_totalPages, crawlSummary_healthy, crawlSummary_redirects,
    crawlSummary_clientErrors, crawlSummary_serverErrors]
  refine ⟨rfl, by simp, by simp, by simp, by simp, by simp, ?_⟩
  simpa using countP_status_partition pages h

/-- Witness for C5's theorem at a concrete all-`≥ 200` page list. -/
theorem C5_summary_buckets_witness :
    (∀ p ∈ [mkPage "a" 204, mkPage "b" 301, mkPage "c" 404, mkPage "d" 503],
      200 ≤ p.status) ∧
    (calculateCrawlSummary
        [mkPage "a" 204, mkPage "b" 301, mkPage "c" 404, mkPage "d" 503]).healthyPages +
      (calculateCrawlSummary
        [mkPage "a" 204, mkPage "b" 301, mkPage "c" 404, mkPage "d" 503]).redirects +
      (calculateCrawlSummary
        [mkPage "a" 204, mkPage "b" 301, mkPage "c" 404, mkPage "d" 503]).clientErrors +
      (calculateCrawlSummary
        [mkPage "a" 204, mkPage "b" 301, mkPage "c" 404, mkPage "d" 503]).serverErrors =
      (calculateCrawlSummary
        [mkPage "a" 204, mkPage "b" 301, mkPage "c" 404, mkPage "d" 503]).totalPages :=
  ⟨by decide, (C5_summary_buckets _ (by decide)).2.2.2.2.2.2⟩

/-! ## Claim C10 (confirmed) -/

/-- C10: on the empty URL list, `analyzePageBatch` returns the empty list
for every fetch transport and every model backend behavior (the model
region is never consulted), given a non-empty API key. -/
theorem C10_empty_batch (agent : AIAgent) (apiKey : String)
    (fetchO : String → Except String String)
    (mo : List (String × String) → Except String ParsedData)
    (hk : apiKey ≠ "") :
    analyzePageBatch [] agent apiKey fetchO mo = .ok [] := by
  unfold analyzePageBatch
  simp [hk]

/-- Witness for C10's theorem at a concrete agent/key and two arbitrary
oracle behaviors. -/
theorem C10_empty_batch_witness :
    analyzePageBatch [] ⟨.gemini, "gemini-2.5-flash", "sys"⟩ "key"
      (fun _ => .error "offline") (fun _ => .ok .other) = .ok [] :=
  C10_empty_batch _ _ _ _ (by decide)

/-! ## Claim C7 (confirmed) -/

/-- C7: when the well-known file's fetch fails, `analyzeRobotsTxt` returns
`{rules: [], sitemaps: []}` and `analyzeAdsTxt` returns
`{records: [], malformedLines: []}`, both as normal (non-throwing)
returns, for every model backend and JSON-parse behavior. -/
theorem C7_wellknown_absent (url apiKey : String) (agent : AIAgent)
    (parseURL : String → Option URLInfo)
    (fetchO : String → Except String String)
    (gmo omo : String → Except String String)
    (jparse : String → Except String JsonValue)
    (base : URLInfo) (er ea : String)
    (hk : apiKey ≠ "")
    (hp : parseURL url = some base)
    (hr : fetchO (base.origin ++ "/robots.txt") = .error er)
    (ha : fetchO (base.origin ++ "/ads.txt") = .error ea) :
    analyzeRobotsTxt url agent apiKey parseURL fetchO gmo omo jparse =
      .ok emptyRobots ∧
    analyzeAdsTxt url agent apiKey parseURL fetchO gmo omo jparse =
      .ok emptyAds := by
  unfold analyzeRobotsTxt analyzeAdsTxt
  constructor <;> simp [hk, hp, hr, ha]

/-- Witness for C7's theorem: a concrete URL whose robots.txt and ads.txt
fetches both fail. -/
theorem C7_wellknown_absent_witness :
    analyzeRobotsTxt "https://ex.example/x" ⟨.gemini, "m", "s"⟩ "k"
      (fun s => if s = "https://ex.example/x" then
        some ⟨"https:", "ex.example", "https://ex.example",
          "https://ex.example/x"⟩ else none)
      (fun _ => .error "proxy down") (fun _ => .error "nope")
      (fun _ => .error "nope") (fun _ => .error "bad json") =
      .ok emptyRobots ∧
    analyzeAdsTxt "https://ex.example/x" ⟨.gemini, "m", "s"⟩ "k"
      (fun s => if s = "https://ex.example/x" then
        some ⟨"https:", "ex.example", "https://ex.example",
          "https://ex.example/x"⟩ else none)
      (fun _ => .error "proxy down") (fun _ => .error "nope")
      (fun _ => .error "nope") (fun _ => .error "bad json") =
      .ok emptyAds :=
  C7_wellknown_absent _ _ _ _ _ _ _ _
    ⟨"https:", "ex.example", "https://ex.example", "https://ex.example/x"⟩
    "proxy down" "proxy down" (by decide) (by simp) rfl rfl

/-! ## Claim C1 (corrected) -/

/-- C1 counterexample: the length/URL-set guarantee fails as stated.  With
one input URL whose fetch succeeds and a model response that parses to an
empty JSON array, `analyzePageBatch` returns the empty list: output length
0 for input length 1, and the input URL is missing from the result. -/
theorem C1_model_can_shrink_output :
    analyzePageBatch ["https://site.example/"] ⟨.gemini, "gemini-pro", "sys"⟩
      "key" (fun _ => .ok "<html></html>") (fun _ => .ok (.arr [])) =
      .ok [] ∧
    ¬ ∃ pages : List CrawledPage,
      analyzePageBatch ["https://site.example/"] ⟨.gemini, "gemini-pro", "sys"⟩
        "key" (fun _ => .ok "<html></html>") (fun _ => .ok (.arr [])) =
        .ok pages ∧
      pages.length = (["https://site.example/"] : List String).length := by
  have h1 : analyzePageBatch ["https://site.example/"]
      ⟨.gemini, "gemini-pro", "sys"⟩ "key" (fun _ => .ok "<html></html>")
      (fun _ => .ok (.arr [])) = .ok ([] : List CrawledPage) := by rfl
  refine ⟨h1, ?_⟩
  rintro ⟨pages, hp, hl⟩
  rw [h1] at hp
  injection hp with h2
  rw [← h2] at hl
  simp at hl

/-- C1 (amended): output length equals input length and the output URL
multiset is a permutation of the input (hence equal as a set) whenever the
model region, *when it succeeds*, returns exactly one item per successfully
fetched page carrying that page's URL (in any order); in particular the
equalities hold unconditionally when every fetch fails or the model
call/parse throws. -/
theorem C1_batch_urls_preserved (urls : List String) (agent : AIAgent)
    (apiKey : String) (fetchO : String → Except String String)
    (mo : List (String × String) → Except String ParsedData)
    (hk : apiKey ≠ "")
    (hmo : ∀ items, modelDispatch agent mo
        ((validPagesOf urls fetchO).map fun p => (p.url, p.html.getD "")) =
          .ok items →
      List.Perm (items.map (fun item => item.url.getD "Unknown URL"))
        ((validPagesOf urls fetchO).map (fun p => p.url))) :
    ∃ pages, analyzePageBatch urls agent apiKey fetchO mo = .ok pages ∧
      pages.length = urls.length ∧
      List.Perm (pages.map (fun p => p.url)) urls ∧
      ∀ u, u ∈ pages.map (fun p => p.url) ↔ u ∈ urls := by
  have hfail : (fetchFailedResults urls fetchO).map (fun p => p.url) =
      ((urls.map (fetchPage fetchO)).filter (·.html.isNone)).map
        (fun p => p.url) := by
    unfold fetchFailedResults
    rw [List.map_map]
    exact List.map_congr_left (fun q _ => rfl)
  have hpart : List.Perm
      ((fetchFailedResults urls fetchO).map (fun p => p.url) ++
        (validPagesOf urls fetchO).map (fun p => p.url)) urls := by
    rw [hfail]
    unfold validPagesOf
    rw [← List.map_append]
    have h2 := (fetchedPages_partition (urls.map (fetchPage fetchO))).map
      (fun p => p.url)
    rw [map_fetchPage_url] at h2
    exact h2
  have finish : ∀ pages : List CrawledPage,
      List.Perm (pages.map (fun p => p.url)) urls →
      pages.length = urls.length ∧
      List.Perm (pages.map (fun p => p.url)) urls ∧
      ∀ u, u ∈ pages.map (fun p => p.url) ↔ u ∈ urls := by
    intro pages hperm
    refine ⟨?_, hperm, fun u => hperm.mem_iff⟩
    have hlen := hperm.length_eq
    rwa [List.length_map] at hlen
  rw [analyzePageBatch_eq urls agent apiKey fetchO mo hk]
  split
  · rename_i hvp
    refine ⟨fetchFailedResults urls fetchO, rfl, ?_⟩
    apply finish
    have hempty : validPagesOf urls fetchO = [] :=
      List.length_eq_zero.mp hvp
    have := hpart
    rw [hempty] at this
    simpa using this
  · split
    · rename_i items heq
      refine ⟨_, rfl, ?_⟩
      apply finish
      rw [List.map_append, List.map_map]
      have hX : List.map ((fun p => p.url) ∘ rawItemToPage) items =
          items.map (fun item => item.url.getD "Unknown URL") :=
        List.map_congr_left (fun q _ => rfl)
      rw [hX]
      exact (List.Perm.append_left _ (hmo items heq)).trans hpart
    · rename_i e heq
      refine ⟨_, rfl, ?_⟩
      apply finish
      rw [List.map_append, List.map_map]
      have hX : List.map ((fun p => p.url) ∘
          analysisFailedPage (analysisErrorMessage e))
          (validPagesOf urls fetchO) =
          (validPagesOf urls fetchO).map (fun p => p.url) :=
        List.map_congr_left (fun q _ => rfl)
      rw [hX]
      exact hpart

/-- Witness for C1's theorem: a two-URL batch in which every fetch fails
(the model hypothesis is vacuous because the model region throws). -/
theorem C1_batch_urls_preserved_witness :
    ∃ pages, analyzePageBatch ["https://a.example/", "https://b.example/"]
      ⟨.gemini, "m", "s"⟩ "k" (fun _ => .error "proxy down")
      (fun _ => .error "x") = .ok pages ∧
      pages.length =
        (["https://a.example/", "https://b.example/"] : List String).length ∧
      List.Perm (pages.map (fun p => p.url))
        ["https://a.example/", "https://b.example/"] ∧
      ∀ u, u ∈ pages.map (fun p => p.url) ↔
        u ∈ ["https://a.example/", "https://b.example/"] :=
  C1_batch_urls_preserved _ _ _ _ _ (by decide)
    (by
      intro items h
      simp [modelDispatch, validPagesOf, fetchPage] at h)

/-! ## Claim C4 (confirmed) -/

/-- C4: when at least one fetch succeeded and the model call / response
parsing region throws with message `e`, `analyzePageBatch` returns normally:
the fetch-failure placeholders are kept as-is, every successfully fetched
page becomes a placeholder with status 500 and title `"Analysis Failed"`,
and the description is the distinct rate-limit message when `e` contains
`"429"`, `"RESOURCE_EXHAUSTED"` or `"rate limit"`, else `e` itself. -/
theorem C4_analysis_error_placeholders (urls : List String) (agent : AIAgent)
    (apiKey : String) (fetchO : String → Except String String)
    (mo : List (String × String) → Except String ParsedData) (e : String)
    (hk : apiKey ≠ "") (he : e ≠ "")
    (hvp : ¬ (validPagesOf urls fetchO).length = 0)
    (hmo : modelDispatch agent mo
      ((validPagesOf urls fetchO).map fun p => (p.url, p.html.getD "")) =
        .error e) :
    analyzePageBatch urls agent apiKey fetchO mo =
      .ok (fetchFailedResults urls fetchO ++
        (validPagesOf urls fetchO).map
          (analysisFailedPage (analysisErrorMessage e))) ∧
    ((validPagesOf urls fetchO).map
        (analysisFailedPage (analysisErrorMessage e))).map (fun p => p.url) =
      (validPagesOf urls fetchO).map (fun p => p.url) ∧
    ∀ p ∈ (validPagesOf urls fetchO).map
        (analysisFailedPage (analysisErrorMessage e)),
      p.status = 500 ∧ p.title = "Analysis Failed" ∧
      p.description = (if isRateLimitError e then
        "API rate limit exceeded. Please wait a moment and try again."
        else e) := by
  refine ⟨?_, ?_, ?_⟩
  · rw [analyzePageBatch_eq urls agent apiKey fetchO mo hk, if_neg hvp, hmo]
  · rw [List.map_map]
    exact List.map_congr_left (fun q _ => rfl)
  · intro p hp
    rcases List.mem_map.mp hp with ⟨q, _, rfl⟩
    refine ⟨rfl, rfl, ?_⟩
    show analysisErrorMessage e = _
    unfold analysisErrorMessage
    by_cases hr : isRateLimitError e = true
    · simp [hr]
    · simp [hr, he]

/-- Witness for C4's theorem: one successfully fetched URL with a
rate-limit-classed model error. -/
theorem C4_analysis_error_placeholders_witness :
    analyzePageBatch ["https://ok.example/"] ⟨.gemini, "m", "s"⟩ "k"
      (fun _ => .ok "<html></html>")
      (fun _ => .error "HTTP 429 rate limit") =
      .ok (fetchFailedResults ["https://ok.example/"]
          (fun _ => .ok "<html></html>") ++
        (validPagesOf ["https://ok.example/"]
            (fun _ => .ok "<html></html>")).map
          (analysisFailedPage (analysisErrorMessage "HTTP 429 rate limit"))) ∧
    ((validPagesOf ["https://ok.example/"]
        (fun _ => .ok "<html></html>")).map
      (analysisFailedPage
        (analysisErrorMessage "HTTP 429 rate limit"))).map (fun p => p.url) =
      (validPagesOf ["https://ok.example/"]
        (fun _ => .ok "<html></html>")).map (fun p => p.url) ∧
    ∀ p ∈ (validPagesOf ["https://ok.example/"]
        (fun _ => .ok "<html></html>")).map
      (analysisFailedPage (analysisErrorMessage "HTTP 429 rate limit")),
      p.status = 500 ∧ p.title = "Analysis Failed" ∧
      p.description = (if isRateLimitError "HTTP 429 rate limit" then
        "API rate limit exceeded. Please wait a moment and try again."
        else "HTTP 429 rate limit") :=
  C4_analysis_error_placeholders _ _ _ _ _ _ (by decide) (by decide)
    (by decide) rfl

/-! ## Claim C6 (confirmed) -/

/-- C6: every input URL whose fetch fails with message `m` yields exactly
one `'Fetch Failed'` placeholder (one per occurrence in the input list,
counted inside the placeholder block the result starts with), whose
description is `m`, whose link counts are 0, whose metaTags are empty, and
whose status is the integer parsed from a `"status <digits>"` fragment of
`m` when present, else 500. -/
theorem C6_fetch_failed_placeholder (urls : List String) (agent : AIAgent)
    (apiKey : String) (fetchO : String → Except String String)
    (mo : List (String × String) → Except String ParsedData) (u m : String)
    (hk : apiKey ≠ "") (hm : fetchO u = .error m) (hne : m ≠ "") :
    (∃ rest, analyzePageBatch urls agent apiKey fetchO mo =
      .ok (fetchFailedResults urls fetchO ++ rest)) ∧
    (fetchFailedResults urls fetchO).countP (fun p => p.url == u) =
      urls.count u ∧
    ∀ p ∈ fetchFailedResults urls fetchO, p.url = u →
      p.title = "Fetch Failed" ∧ p.description = m ∧
      p.status = (match statusFragment m.data with
        | some n => (n : Int)
        | none => 500) ∧
      p.internalLinks = 0 ∧ p.externalLinks = 0 ∧ p.metaTags = [] := by
  refine ⟨analyzePageBatch_shape urls agent apiKey fetchO mo hk,
    fetchFailedResults_countP urls fetchO u m hm, ?_⟩
  intro p hp hpu
  rcases fetchFailedResults_mem urls fetchO p hp with ⟨v, _, rfl⟩
  have hvu : v = u := by
    have h1 := fetchFailedPage_url (fetchPage fetchO v)
    rw [fetchPage_url] at h1
    rw [← hpu, h1]
  subst hvu
  rw [fetchPage_error fetchO v m hm]
  refine ⟨rfl, ?_, rfl, rfl, rfl, rfl⟩
  show (if m = "" then "N/A" else m) = m
  rw [if_neg hne]

/-- Witness for C6's theorem: a two-URL batch where one fetch fails with a
`"status 503"` fragment in the message. -/
theorem C6_fetch_failed_placeholder_witness :
    (∃ rest, analyzePageBatch ["https://good.example/", "https://bad.example/"]
      ⟨.gemini, "m", "s"⟩ "k"
      (fun s => if s = "https://bad.example/" then
        .error "request failed with status 503" else .ok "<html></html>")
      (fun _ => .ok .other) =
      .ok (fetchFailedResults ["https://good.example/", "https://bad.example/"]
        (fun s => if s = "https://bad.example/" then
          .error "request failed with status 503" else .ok "<html></html>") ++
        rest)) ∧
    (fetchFailedResults ["https://good.example/", "https://bad.example/"]
      (fun s => if s = "https://bad.example/" then
        .error "request failed with status 503" else .ok "<html></html>")).countP
      (fun p => p.url == "https://bad.example/") =
      (["https://good.example/", "https://bad.example/"] : List String).count
        "https://bad.example/" ∧
    ∀ p ∈ fetchFailedResults ["https://good.example/", "https://bad.example/"]
      (fun s => if s = "https://bad.example/" then
        .error "request failed with status 503" else .ok "<html></html>"),
      p.url = "https://bad.example/" →
      p.title = "Fetch Failed" ∧
      p.description = "request failed with status 503" ∧
      p.status = (match statusFragment
          ("request failed with status 503" : String).data with
        | some n => (n : Int)
        | none => 500) ∧
      p.internalLinks = 0 ∧ p.externalLinks = 0 ∧ p.metaTags = [] :=
  C6_fetch_failed_placeholder _ _ _ _ _ _ _ (by decide) (by simp) (by decide)

/-! ## Claim C3 (confirmed) -/

/-- C3: no entry of the list returned by `fetchAllUrlsFromSitemaps` has a
`loc` that (case-insensitively) ends in `".xml"` or `".xml.gz"`: such
provisional entries are enqueued for further traversal, never appended to
the accumulated result. -/
theorem C3_no_nested_sitemap_leaks (url : String) (agent : AIAgent)
    (apiKey : String) (parseURL : String → Option URLInfo)
    (fetchO : String → Except String String)
    (smo : String → Except String SitemapParsedData) (fuel : Nat)
    (res : List SitemapEntry × List String)
    (hk : apiKey ≠ "")
    (hres : fetchAllUrlsFromSitemaps url agent apiKey parseURL fetchO smo
      fuel = .ok res) :
    ∀ e ∈ res.1, endsWithStr (lowerStr e.loc) ".xml" = false ∧
      endsWithStr (lowerStr e.loc) ".xml.gz" = false := by
  unfold fetchAllUrlsFromSitemaps at hres
  rw [if_neg hk] at hres
  cases hp : parseURL url with
  | none =>
    rw [hp] at hres
    exact absurd hres (by simp)
  | some base =>
    rw [hp] at hres
    injection hres with h
    rw [← h]
    exact sitemapLoop_allEntries fetchO (parseSitemapWithAI agent smo) fuel _
      (by intro e he; simp at he)

/-- Witness for C3's theorem: a concrete traversal (robots.txt absent,
default sitemap parses to one page entry and one nested-sitemap entry that
is traversed, not emitted). -/
theorem C3_no_nested_sitemap_leaks_witness :
    fetchAllUrlsFromSitemaps "https://c3.example/" ⟨.gemini, "m", "s"⟩ "k"
      (fun s => if s = "https://c3.example/" then
        some ⟨"https:", "c3.example", "https://c3.example",
          "https://c3.example/"⟩ else none)
      (fun s => if s = "https://c3.example/robots.txt" then
        .error "absent" else .ok "<urlset/>")
      (fun _ => .ok (.arr [⟨some "https://c3.example/page", none, none, none⟩,
        ⟨some "https://c3.example/more.xml", none, none, none⟩]))
      4 =
      .ok ([⟨"https://c3.example/page", "", "", 1/2⟩,
        ⟨"https://c3.example/page", "", "", 1/2⟩],
        ["https://c3.example/sitemap.xml", "https://c3.example/more.xml"]) ∧
    ∀ e ∈ (([⟨"https://c3.example/page", "", "", 1/2⟩,
        ⟨"https://c3.example/page", "", "", 1/2⟩],
        ["https://c3.example/sitemap.xml", "https://c3.example/more.xml"]) :
        List SitemapEntry × List String).1,
      endsWithStr (lowerStr e.loc) ".xml" = false ∧
        endsWithStr (lowerStr e.loc) ".xml.gz" = false :=
  ⟨rfl, fun e he => C3_no_nested_sitemap_leaks "https://c3.example/"
    ⟨.gemini, "m", "s"⟩ "k"
    (fun s => if s = "https://c3.example/" then
      some ⟨"https:", "c3.example", "https://c3.example",
        "https://c3.example/"⟩ else none)
    (fun s => if s = "https://c3.example/robots.txt" then
      .error "absent" else .ok "<urlset/>")
    (fun _ => .ok (.arr [⟨some "https://c3.example/page", none, none, none⟩,
      ⟨some "https://c3.example/more.xml", none, none, none⟩]))
    4 _ (by decide) rfl e he⟩

/-! ## Claim C8 (corrected) -/

/-- C8 counterexample: result `loc`s are not unique.  A single sitemap whose
parse yields the same leaf `loc` twice makes the final list contain two
entries with equal `loc`. -/
theorem C8_duplicate_locs :
    fetchAllUrlsFromSitemaps "https://c8.example/" ⟨.gemini, "m", "s"⟩ "k"
      (fun s => if s = "https://c8.example/" then
        some ⟨"https:", "c8.example", "https://c8.example",
          "https://c8.example/"⟩ else none)
      (fun s => if s = "https://c8.example/robots.txt" then
        .error "absent" else .ok "<urlset/>")
      (fun _ => .ok (.arr [⟨some "https://c8.example/page", none, none, none⟩,
        ⟨some "https://c8.example/page", none, none, none⟩]))
      3 =
      .ok ([⟨"https://c8.example/page", "", "", 1/2⟩,
        ⟨"https://c8.example/page", "", "", 1/2⟩],
        ["https://c8.example/sitemap.xml"]) ∧
    ¬ (([⟨"https://c8.example/page", "", "", 1/2⟩,
        ⟨"https://c8.example/page", "", "", 1/2⟩] :
        List SitemapEntry).map SitemapEntry.loc).Nodup := by
  constructor
  · rfl
  · decide

/-- C8 (amended): result entry `loc`s are not deduplicated (they may
repeat); what is unique within a traversal is the set of sitemap URLs the
loop fetches — the visited-set guarantees the fetched-sitemap log is
duplicate-free. -/
theorem C8_sitemap_fetches_unique (url : String) (agent : AIAgent)
    (apiKey : String) (parseURL : String → Option URLInfo)
    (fetchO : String → Except String String)
    (smo : String → Except String SitemapParsedData) (fuel : Nat)
    (res : List SitemapEntry × List String)
    (hk : apiKey ≠ "")
    (hres : fetchAllUrlsFromSitemaps url agent apiKey parseURL fetchO smo
      fuel = .ok res) :
    res.2.Nodup := by
  unfold fetchAllUrlsFromSitemaps at hres
  rw [if_neg hk] at hres
  cases hp : parseURL url with
  | none =>
    rw [hp] at hres
    exact absurd hres (by simp)
  | some base =>
    rw [hp] at hres
    injection hres with h
    rw [← h]
    exact (sitemapLoop_fetched_nodup fetchO (parseSitemapWithAI agent smo)
      fuel _ (by simp) (by simp)).1

/-- Witness for C8's theorem at a concrete traversal with one nested
sitemap (fetched once, although its parse re-lists it). -/
theorem C8_sitemap_fetches_unique_witness :
    fetchAllUrlsFromSitemaps "https://c8w.example/" ⟨.gemini, "m", "s"⟩ "k"
      (fun s => if s = "https://c8w.example/" then
        some ⟨"https:", "c8w.example", "https://c8w.example",
          "https://c8w.example/"⟩ else none)
      (fun s => if s = "https://c8w.example/robots.txt" then
        .error "absent" else .ok "<urlset/>")
      (fun _ => .ok (.arr [⟨some "https://c8w.example/a.xml", none, none,
        none⟩]))
      4 =
      .ok ([], ["https://c8w.example/sitemap.xml",
        "https://c8w.example/a.xml"]) ∧
    ((([], ["https://c8w.example/sitemap.xml", "https://c8w.example/a.xml"]) :
      List SitemapEntry × List String)).2.Nodup :=
  ⟨rfl, C8_sitemap_fetches_unique "https://c8w.example/" ⟨.gemini, "m", "s"⟩
    "k"
    (fun s => if s = "https://c8w.example/" then
      some ⟨"https:", "c8w.example", "https://c8w.example",
        "https://c8w.example/"⟩ else none)
    (fun s => if s = "https://c8w.example/robots.txt" then
      .error "absent" else .ok "<urlset/>")
    (fun _ => .ok (.arr [⟨some "https://c8w.example/a.xml", none, none,
      none⟩]))
    4 _ (by decide) rfl⟩

/-! ## Claim C2 (confirmed) -/

/-- C2: under the URL-semantics hypothesis that stripping a fragment
preserves the parsed hostname (`hwb`, true of real `URL` objects), every URL
in the set returned by `discoverUrlsToCrawl` parses to the seed's hostname
(the seed itself parses to `base`, so all returned URLs share `startUrl`'s
hostname), and every page expansion — each `fetchWithProxy` call, recorded
in the ghost fetch log — happens at a queue depth strictly below
`maxDepth`, so no page at depth ≥ `maxDepth` ever has its links fetched or
followed. -/
theorem C2_crawl_same_host_and_depth (startUrl : String) (crawlDepth : Nat)
    (parseURL : String → Option URLInfo)
    (resolveO : String → String → Option URLInfo)
    (fetchLinksO : String → Option (List String))
    (fuel : Nat) (base : URLInfo) (res : List String × List (String × Nat))
    (hp : parseURL startUrl = some base)
    (hwb : ∀ href b u, resolveO href b = some u →
      (parseURL (stripFragment u.href)).map (·.hostname) = some u.hostname)
    (hres : discoverUrlsToCrawl startUrl crawlDepth parseURL resolveO
      fetchLinksO fuel = some res) :
    (∀ u ∈ res.1, (parseURL u).map (·.hostname) = some base.hostname) ∧
    (∀ pd ∈ res.2, pd.2 < crawlDepth) := by
  unfold discoverUrlsToCrawl at hres
  rw [hp] at hres
  injection hres with h
  rw [← h]
  apply crawlLoop_inv fetchLinksO resolveO parseURL base.hostname crawlDepth
    hwb fuel
  · intro x hx
    have hx' : x = startUrl := by simpa using hx
    subst hx'
    rw [hp]
    rfl
  · intro pd hpd
    simp at hpd

/-- Witness for C2's theorem: a depth-0 crawl of a concrete seed (nothing is
expanded; the seed alone is returned and the fetch log is empty). -/
theorem C2_crawl_same_host_and_depth_witness :
    discoverUrlsToCrawl "https://w.example/" 0
      (fun s => if s = "https://w.example/" then
        some ⟨"https:", "w.example", "https://w.example",
          "https://w.example/"⟩ else none)
      (fun _ _ => none) (fun _ => none) 2 =
      some (["https://w.example/"], []) ∧
    (∀ u ∈ ((["https://w.example/"], []) :
        List String × List (String × Nat)).1,
      ((fun s => if s = "https://w.example/" then
        some (⟨"https:", "w.example", "https://w.example",
          "https://w.example/"⟩ : URLInfo) else none) u).map (·.hostname) =
        some "w.example") ∧
    (∀ pd ∈ ((["https://w.example/"], []) :
        List String × List (String × Nat)).2, pd.2 < 0) := by
  have h := C2_crawl_same_host_and_depth "https://w.example/" 0
    (fun s => if s = "https://w.example/" then
      some ⟨"https:", "w.example", "https://w.example",
        "https://w.example/"⟩ else none)
    (fun _ _ => none) (fun _ => none) 2
    ⟨"https:", "w.example", "https://w.example", "https://w.example/"⟩
    (["https://w.example/"], []) (by simp)
    (by intro href b u hu; exact absurd hu (by simp)) rfl
  exact ⟨rfl, h.1, h.2⟩

end AiCrowler
